import Mathlib

/-!
# Minko property containers and the draw-call z-sort trigger

A shallow embedding of `minko/data/Container.hpp` and
`minko/render/DrawCallZSorter.cpp`.

Conventions of the embedding:

* `std::shared_ptr<Provider>` is an address into a heap of providers
  (`Heap`), `none` being the null pointer; providers are shared, so every
  write goes through the heap.
* `std::unordered_map` is an association list with unique keys (`AList`);
  its iteration order is unspecified and is a parameter (`Traversal`).
* a C++ function that may throw returns the state it leaves behind together
  with an `Except Error` outcome.
* `float` scalars are rationals; rounding is not modelled.
-/

namespace Minko

/-! ## Errors, scalars and values -/

/-- Exceptions and undefined behaviour reachable from the embedded code. -/
inductive Error where
  | propertyNotFound
  | typeMismatch
  | invalidArgument
  | nullPointer
  | pastTheEnd
  deriving DecidableEq, Repr

/-- Result of a `void` member function: the state left behind and the outcome. -/
abbrev Outcome (σ : Type) := σ × Except Error Unit

/-- Stands for `math::Vector3`. -/
structure Vector3 where
  x : ℚ
  y : ℚ
  z : ℚ
  deriving DecidableEq

/-- Stands for `math::Vector4`. -/
structure Vector4 where
  x : ℚ
  y : ℚ
  z : ℚ
  w : ℚ
  deriving DecidableEq

/-- Stands for `math::Matrix4x4`, given by its four rows. -/
structure Matrix4x4 where
  r0 : Vector4
  r1 : Vector4
  r2 : Vector4
  r3 : Vector4
  deriving DecidableEq

/-- The part of `render::VertexBuffer` read by the z-sorter. -/
structure VertexBuffer where
  minPosition : Vector3
  maxPosition : Vector3
  deriving DecidableEq

/-- Type parameter `T` of the typed accessors. -/
inductive TypeTag where
  | int
  | float
  | string
  | matrix4x4
  | vertexBufferPtr
  deriving DecidableEq, Repr

/-- A typed property value; `vertexBufferPtr none` is a null `VertexBuffer::Ptr`. -/
inductive Value where
  | int (i : Int)
  | float (f : ℚ)
  | string (s : String)
  | matrix4x4 (m : Matrix4x4)
  | vertexBufferPtr (vb : Option VertexBuffer)
  deriving DecidableEq

/-- Type category of a stored value. -/
def Value.type : Value → TypeTag
  | .int _ => .int
  | .float _ => .float
  | .string _ => .string
  | .matrix4x4 _ => .matrix4x4
  | .vertexBufferPtr _ => .vertexBufferPtr

/-! ## Unordered maps -/

/-- Stands for `std::unordered_map<K, V>`: unique keys, unspecified order. -/
abbrev UMap (κ : Type) (ν : Type) := AList (fun _ : κ => ν)

/-- Iteration order of an unordered map: every entry exactly once. -/
structure Traversal (κ : Type) (ν : Type) where
  order : UMap κ ν → List (Sigma (fun _ : κ => ν))
  perm : ∀ m : UMap κ ν, (order m).Perm m.entries

/-- The traversal that follows the stored order of the entries. -/
def Traversal.stored (κ : Type) (ν : Type) : Traversal κ ν where
  order := fun m => m.entries
  perm := fun _ => List.Perm.refl _

/-- Stands for `std::unordered_map::operator[]`: the mapped value, after
default-inserting it when the key is absent. -/
def UMap.index {κ ν : Type} [DecidableEq κ] (m : UMap κ ν) (k : κ) (dflt : ν) : UMap κ ν × ν :=
  match m.lookup k with
  | some v => (m, v)
  | none => (m.insert k dflt, dflt)

/-! ## Providers -/

/-- Modelled from the spec: `Provider` (minko/data/Provider.hpp is not part of
the sources).  A provider owns a flat mapping from property name to typed
value. -/
structure Provider where
  values : UMap String Value

/-- Modelled from the spec: `Provider::get<T>(name, skipPropertyNameFormatting)`.
Fails with property-not-found on an unknown name and with type-mismatch when
`T` is not the stored type.  The spec describes no provider-side name
formatting, so the flag does not alter the lookup. -/
def Provider.get (p : Provider) (propertyName : String) (_skipPropertyNameFormatting : Bool)
    (T : TypeTag) : Except Error Value :=
  match p.values.lookup propertyName with
  | none => .error .propertyNotFound
  | some v => if v.type = T then .ok v else .error .typeMismatch

/-- Modelled from the spec: `Provider::set<T>(name, value)`.  Stores the value
under the name; a typed access against a differently-typed stored value fails
with type-mismatch. -/
def Provider.set (p : Provider) (propertyName : String) (value : Value) : Except Error Provider :=
  match p.values.lookup propertyName with
  | none => .ok { values := p.values.insert propertyName value }
  | some old =>
    if old.type = value.type then .ok { values := p.values.insert propertyName value }
    else .error .typeMismatch

/-- Stands for `std::shared_ptr<Provider>`: `none` is `nullptr`. -/
abbrev ProviderPtr := Option Nat

/-- The providers alive in the process, by address. -/
abbrev Heap := Nat → Provider

/-! ## Container -/

/-- Width of `uint`. -/
def UINT_MOD : Nat := 2 ^ 32

/-- Data members of `data::Container` (signals and slots are left out). -/
structure Container where
  _containerId : Nat
  _providers : List ProviderPtr
  _propertyNameToProvider : UMap String ProviderPtr
  _providersToNumUse : UMap ProviderPtr Nat
  _providerToIndex : UMap ProviderPtr Nat

/-- Parts of the build and of `Container.cpp` that the header only declares. -/
structure Env where
  /-- Whether the `DEBUG` macro is defined. -/
  debug : Bool
  /-- Stands for `Container::formatPropertyName(provider, name)`. -/
  formatPropertyName : ProviderPtr → String → String
  /-- Stands for `Container::unformatPropertyName(provider, name)`, a const
  member function of the container. -/
  unformatPropertyName : Container → ProviderPtr → String → String
  /-- Iteration order of `_propertyNameToProvider`. -/
  propertyOrder : Traversal String ProviderPtr
  /-- The index `addProvider` assigns to a provider that has none. -/
  assignIndex : Container → ProviderPtr → Nat

/-- Modelled from the spec: `Container::create()` yields a container with no
provider and no property (the constructor lives in Container.cpp). -/
def Container.create (containerId : Nat) : Container where
  _containerId := containerId
  _providers := []
  _propertyNameToProvider := ∅
  _providersToNumUse := ∅
  _providerToIndex := ∅

/-- Modelled from the spec: `Container::hasProperty(name)` tells whether the
formatted name is known to the name-to-provider map (Container.cpp). -/
def Container.hasProperty (c : Container) (propertyName : String) : Bool :=
  decide (propertyName ∈ c._propertyNameToProvider)

/-- Modelled from the spec: `Container::assertPropertyExists(name)` fails with
property-not-found when the name is unknown (Container.cpp). -/
def Container.assertPropertyExists (c : Container) (propertyName : String) : Except Error Unit :=
  if c.hasProperty propertyName then .ok () else .error .propertyNotFound

/-- Embeds `Container::get<T>(propertyName)`. -/
def Container.get (env : Env) (heap : Heap) (c : Container) (propertyName : String)
    (T : TypeTag) : Except Error Value :=
  match c.assertPropertyExists propertyName with
  | .error e => .error e
  | .ok () =>
    match c._propertyNameToProvider.lookup propertyName with
    | none => .error .pastTheEnd
    | some provider =>
      let unformatedPropertyName := env.unformatPropertyName c provider propertyName
      match provider with
      | none => .error .nullPointer
      | some a => (heap a).get unformatedPropertyName true T

/-- Embeds `Container::set<T>(propertyName, value)`.  The provider is written
in place, so the heap is part of the state. -/
def Container.set (env : Env) (heap : Heap) (c : Container) (propertyName : String)
    (value : Value) : Outcome (Container × Heap) :=
  match c.assertPropertyExists propertyName with
  | .error e => ((c, heap), .error e)
  | .ok () =>
    let indexed := UMap.index c._propertyNameToProvider propertyName none
    let c1 : Container := { c with _propertyNameToProvider := indexed.1 }
    let provider := indexed.2
    let unformatedPropertyName := env.unformatPropertyName c1 provider propertyName
    match provider with
    | none => ((c1, heap), .error .nullPointer)
    | some a =>
      match (heap a).set unformatedPropertyName value with
      | .error e => ((c1, heap), .error e)
      | .ok p1 => ((c1, Function.update heap a p1), .ok ())

/-- Embeds `Container::propertyHasType<T>(propertyName, skip)`; the provider
side is modelled from the spec as a comparison with the stored type. -/
def Container.propertyHasType (env : Env) (heap : Heap) (c : Container) (propertyName : String)
    (T : TypeTag) (skipPropertyNameFormatting : Bool) : Except Error Bool :=
  match c.assertPropertyExists propertyName with
  | .error e => .error e
  | .ok () =>
    match c._propertyNameToProvider.lookup propertyName with
    | none => .error .pastTheEnd
    | some provider =>
      let unformatedPropertyName := env.unformatPropertyName c provider propertyName
      match provider with
      | none => .error .nullPointer
      | some a =>
        match (heap a).get unformatedPropertyName skipPropertyNameFormatting T with
        | .ok _ => .ok true
        | .error .typeMismatch => .ok false
        | .error e => .error e

/-- Embeds `Container::properties()`: the keys met while iterating the map. -/
def Container.properties (env : Env) (c : Container) : List String :=
  (env.propertyOrder.order c._propertyNameToProvider).map Sigma.fst

/-! ## Attaching and detaching providers -/

/-- Embeds `Container::assertProviderDoesNotExist(provider)`. -/
def Container.assertProviderDoesNotExist (env : Env) (c : Container) (provider : ProviderPtr) :
    Except Error Unit :=
  if env.debug then
    if provider ∈ c._providers then .error .invalidArgument else .ok ()
  else .ok ()

/-- Embeds `Container::assertProviderExists(provider)`. -/
def Container.assertProviderExists (env : Env) (c : Container) (provider : ProviderPtr) :
    Except Error Unit :=
  if env.debug then
    if provider ∈ c._providers then .ok () else .error .invalidArgument
  else .ok ()

/-- The usage count of a provider, zero when it has none. -/
def Container.numUse (c : Container) (provider : ProviderPtr) : Nat :=
  (c._providersToNumUse.lookup provider).getD 0

/-- Modelled from the spec: the formatted names of the properties a provider
contributes to a container (the provider's own names run through
`Container::formatPropertyName`; the index of a provider is stable, so the
formatted name depends on the provider and the name only). -/
def Container.formattedNames (env : Env) (heap : Heap) (provider : ProviderPtr) : List String :=
  match provider with
  | none => []
  | some a => (heap a).values.keys.map (env.formatPropertyName provider)

/-- Modelled from the spec: the registration step of `addProvider`. Each
formatted name enters the name-to-provider map with the provider as its owner,
unless the map already knows the name: an existing mapping is not clobbered
(spec, section 3). -/
def Container.registerNames (m : UMap String ProviderPtr) (provider : ProviderPtr)
    (names : List String) : UMap String ProviderPtr :=
  names.foldl (fun m name => if name ∈ m then m else m.insert name provider) m

/-- Modelled from the spec: the unregistration step of `removeProvider`. The
provider's own formatted names leave the name-to-provider map, that is those
the map sends to this provider; a name that belongs to another attached
provider stays (spec, section 8). -/
def Container.unregisterNames (m : UMap String ProviderPtr) (provider : ProviderPtr)
    (names : List String) : UMap String ProviderPtr :=
  names.foldl (fun m name => if m.lookup name = some provider then m.erase name else m) m

/-- Modelled from the spec: `Container::addProvider(provider)` (Container.cpp is
not part of the sources). A provider that is already attached has its usage
count incremented; otherwise it is appended to the ordered list with usage
count one, it keeps the index it had or is assigned one, and its formatted
property names are registered in the name-to-provider map, a name that is
already present keeping its owner. The forwarded signals are left out. -/
def Container.addProvider (env : Env) (heap : Heap) (c : Container) (provider : ProviderPtr) :
    Outcome Container :=
  match provider with
  | none => (c, .error .nullPointer)
  | some _ =>
    if 0 < c.numUse provider then
      ({ c with _providersToNumUse :=
          c._providersToNumUse.insert provider ((c.numUse provider + 1) % UINT_MOD) }, .ok ())
    else
      match c.assertProviderDoesNotExist env provider with
      | .error e => (c, .error e)
      | .ok () =>
        let index : Nat :=
          match c._providerToIndex.lookup provider with
          | some i => i
          | none => env.assignIndex c provider
        ({ c with
            _providers := c._providers ++ [provider]
            _providersToNumUse := c._providersToNumUse.insert provider 1
            _providerToIndex := c._providerToIndex.insert provider index
            _propertyNameToProvider :=
              Container.registerNames c._propertyNameToProvider provider
                (Container.formattedNames env heap provider) },
          .ok ())

/-- Modelled from the spec: `Container::removeProvider(provider)` (Container.cpp
is not part of the sources). Fails when the provider is not attached;
otherwise the usage count is decremented and, when it reaches zero, the
provider leaves the ordered list and its own formatted names are
unregistered. The forwarded signals are left out. -/
def Container.removeProvider (env : Env) (heap : Heap) (c : Container)
    (provider : ProviderPtr) : Outcome Container :=
  match c.assertProviderExists env provider with
  | .error e => (c, .error e)
  | .ok () =>
    if c.numUse provider = 0 then (c, .error .invalidArgument)
    else if c.numUse provider = 1 then
      ({ c with
          _providers := c._providers.erase provider
          _providersToNumUse := c._providersToNumUse.erase provider
          _propertyNameToProvider :=
            Container.unregisterNames c._propertyNameToProvider provider
              (Container.formattedNames env heap provider) },
        .ok ())
    else
      ({ c with _providersToNumUse :=
          c._providersToNumUse.insert provider (c.numUse provider - 1) }, .ok ())

/-- A call of `addProvider` or `removeProvider`. -/
inductive ContainerCall where
  | addProvider (provider : ProviderPtr)
  | removeProvider (provider : ProviderPtr)
  deriving DecidableEq

/-- The provider a call is about. -/
def ContainerCall.provider : ContainerCall → ProviderPtr
  | .addProvider p => p
  | .removeProvider p => p

/-- Stands for `math::Vector3(s)`: the vector with every coordinate `s`. -/
def Vector3.splat (s : ℚ) : Vector3 := ⟨s, s, s⟩

/-- Coordinate-wise sum. -/
def Vector3.add (a b : Vector3) : Vector3 := ⟨a.x + b.x, a.y + b.y, a.z + b.z⟩

/-- Coordinate-wise difference. -/
def Vector3.sub (a b : Vector3) : Vector3 := ⟨a.x - b.x, a.y - b.y, a.z - b.z⟩

/-- Product with a scalar. -/
def Vector3.scale (a : Vector3) (s : ℚ) : Vector3 := ⟨a.x * s, a.y * s, a.z * s⟩

/-- Stands for `math::Vector4(v, w)`. -/
def Vector4.ofVector3 (v : Vector3) (w : ℚ) : Vector4 := ⟨v.x, v.y, v.z, w⟩

/-- Stands for `.xyz()`. -/
def Vector4.xyz (v : Vector4) : Vector3 := ⟨v.x, v.y, v.z⟩

/-- Stands for `math::Matrix4x4(s)`: `s` on the diagonal, zero elsewhere. -/
def Matrix4x4.diagonal (s : ℚ) : Matrix4x4 :=
  ⟨⟨s, 0, 0, 0⟩, ⟨0, s, 0, 0⟩, ⟨0, 0, s, 0⟩, ⟨0, 0, 0, s⟩⟩

/-- Row vector times matrix. -/
def Vector4.mulMatrix (v : Vector4) (m : Matrix4x4) : Vector4 :=
  ⟨v.x * m.r0.x + v.y * m.r1.x + v.z * m.r2.x + v.w * m.r3.x,
   v.x * m.r0.y + v.y * m.r1.y + v.z * m.r2.y + v.w * m.r3.y,
   v.x * m.r0.z + v.y * m.r1.z + v.z * m.r2.z + v.w * m.r3.z,
   v.x * m.r0.w + v.y * m.r1.w + v.z * m.r2.w + v.w * m.r3.w⟩

/-- Matrix product: each row of the left factor times the right factor. -/
def Matrix4x4.mul (a b : Matrix4x4) : Matrix4x4 :=
  ⟨a.r0.mulMatrix b, a.r1.mulMatrix b, a.r2.mulMatrix b, a.r3.mulMatrix b⟩

/-! ## Draw-call z-sorter -/

/-- Stands for `data::BindingSource`, as far as the z-sorter uses it. -/
inductive BindingSource where
  | target
  | renderer
  deriving DecidableEq, Repr

/-- Stands for `DrawCallZSorter::PropertyInfo(source, isMatrix)`. -/
structure PropertyInfo where
  source : BindingSource
  isMatrix : Bool
  deriving DecidableEq, Repr

/-- The part of `render::DrawCall` the z-sorter talks to (DrawCall.hpp is not
part of the sources): its identity, the `zSorted()` flag and
`formatPropertyName`. -/
structure DrawCall where
  id : Nat
  zSorted : Bool
  formatPropertyName : String → String

/-- The signal of a container a slot is connected to. -/
inductive Channel where
  | propertyAdded
  | propertyRemoved
  | propertyValueChanged (propertyName : String)
  deriving DecidableEq, Repr

/-- The member function a connected slot runs. -/
inductive Callback where
  | propertyAddedHandler
  | propertyRemovedHandler
  | requestZSort
  deriving DecidableEq, Repr

/-- A live connection returned by `Signal::connect`: the emitting container
(by `_containerId`), the signal, and the callback. Dropping the slot ends the
subscription. -/
structure Slot where
  container : Nat
  channel : Channel
  callback : Callback
  deriving DecidableEq, Repr

/-- Data members of `render::DrawCallZSorter`. -/
structure DrawCallZSorter where
  _drawcall : DrawCall
  _properties : UMap String PropertyInfo
  _targetPropAddedSlot : Option Slot
  _targetPropRemovedSlot : Option Slot
  _rendererPropAddedSlot : Option Slot
  _rendererPropRemovedSlot : Option Slot
  _propChangedSlots : UMap String Slot
  _matrixChangedSlots : UMap String Slot
  _vertexPositions : String × Option VertexBuffer
  _modelToWorldMatrix : String × Option Matrix4x4
  _worldToScreenMatrix : String × Option Matrix4x4

/-- A z-sorter together with the record of the executions of its draw call's
`zsortNeeded` signal (the draw call passed as argument, oldest first). -/
structure World where
  sorter : DrawCallZSorter
  zsortNeeded : List Nat

/-- Embeds `DrawCallZSorter::initializeRawProperties()`. -/
def DrawCallZSorter.initializeRawProperties : UMap String PropertyInfo :=
  let props : UMap String PropertyInfo := ∅
  let props := props.insert "material[${materialId}].priority" ⟨.target, false⟩
  let props := props.insert "material[${materialId}].zSort" ⟨.target, false⟩
  let props := props.insert "geometry[${geometryId}].position" ⟨.target, false⟩
  let props := props.insert "transform.modelToWorldMatrix" ⟨.target, true⟩
  let props := props.insert "camera.worldToScreenMatrix" ⟨.renderer, true⟩
  props

/-- Embeds the static member `DrawCallZSorter::_rawProperties`. -/
def DrawCallZSorter._rawProperties : UMap String PropertyInfo :=
  DrawCallZSorter.initializeRawProperties

/-- Embeds the constructor `DrawCallZSorter(drawcall)` for a non-null draw call. -/
def DrawCallZSorter.create (drawcall : DrawCall) : DrawCallZSorter where
  _drawcall := drawcall
  _properties := ∅
  _targetPropAddedSlot := none
  _targetPropRemovedSlot := none
  _rendererPropAddedSlot := none
  _rendererPropRemovedSlot := none
  _propChangedSlots := ∅
  _matrixChangedSlots := ∅
  _vertexPositions := ("", none)
  _modelToWorldMatrix := ("", none)
  _worldToScreenMatrix := ("", none)

/-- Embeds `DrawCallZSorter::requestZSort()`. -/
def DrawCallZSorter.requestZSort (w : World) : World :=
  if w.sorter._drawcall.zSorted then
    { w with zsortNeeded := w.zsortNeeded ++ [w.sorter._drawcall.id] }
  else w

/-- Embeds `DrawCallZSorter::recordIfPositionalMembers`. -/
def DrawCallZSorter.recordIfPositionalMembers (env : Env) (heap : Heap) (s : DrawCallZSorter)
    (container : Container) (propertyName : String)
    (isPropertyAdded isPropertyRemoved : Bool) : Outcome DrawCallZSorter :=
  if isPropertyAdded then
    if propertyName = s._vertexPositions.1 then
      match Container.get env heap container propertyName .vertexBufferPtr with
      | .ok (.vertexBufferPtr vb) =>
        ({ s with _vertexPositions := (s._vertexPositions.1, vb) }, .ok ())
      | .ok _ => (s, .error .typeMismatch)
      | .error e => (s, .error e)
    else if propertyName = s._modelToWorldMatrix.1 then
      match Container.get env heap container propertyName .matrix4x4 with
      | .ok (.matrix4x4 m) =>
        ({ s with _modelToWorldMatrix := (s._modelToWorldMatrix.1, some m) }, .ok ())
      | .ok _ => (s, .error .typeMismatch)
      | .error e => (s, .error e)
    else if propertyName = s._worldToScreenMatrix.1 then
      match Container.get env heap container propertyName .matrix4x4 with
      | .ok (.matrix4x4 m) =>
        ({ s with _worldToScreenMatrix := (s._worldToScreenMatrix.1, some m) }, .ok ())
      | .ok _ => (s, .error .typeMismatch)
      | .error e => (s, .error e)
    else (s, .ok ())
  else if isPropertyRemoved then
    if propertyName = s._vertexPositions.1 then
      ({ s with _vertexPositions := (s._vertexPositions.1, none) }, .ok ())
    else if propertyName = s._modelToWorldMatrix.1 then
      ({ s with _modelToWorldMatrix := (s._modelToWorldMatrix.1, none) }, .ok ())
    else if propertyName = s._worldToScreenMatrix.1 then
      ({ s with _worldToScreenMatrix := (s._worldToScreenMatrix.1, none) }, .ok ())
    else (s, .ok ())
  else (s, .ok ())

/-- The slot returned by
`container->propertyValueChanged(propertyName)->connect(...)`, whose callback
calls `requestZSort()`. -/
def DrawCallZSorter.valueChangedSlot (container : Container) (propertyName : String) : Slot :=
  ⟨container._containerId, .propertyValueChanged propertyName, .requestZSort⟩

/-- The subscription step of `propertyAddedHandler`: connect to the
value-changed signal of the property unless `_propChangedSlots` already holds a
slot for it. -/
def DrawCallZSorter.connectValueChanged (s : DrawCallZSorter) (container : Container)
    (propertyName : String) : DrawCallZSorter :=
  if propertyName ∈ s._propChangedSlots then s
  else
    let slot := DrawCallZSorter.valueChangedSlot container propertyName
    { s with _propChangedSlots := s._propChangedSlots.insert propertyName slot }

/-- Embeds `DrawCallZSorter::propertyAddedHandler(container, propertyName)`. -/
def DrawCallZSorter.propertyAddedHandler (env : Env) (heap : Heap) (w : World)
    (container : Container) (propertyName : String) : Outcome World :=
  match w.sorter._properties.lookup propertyName with
  | none => (w, .ok ())
  | some _foundProp =>
    match DrawCallZSorter.recordIfPositionalMembers env heap w.sorter container propertyName
        true false with
    | (s1, .error e) => ({ w with sorter := s1 }, .error e)
    | (s1, .ok ()) =>
      let s2 := DrawCallZSorter.connectValueChanged s1 container propertyName
      (DrawCallZSorter.requestZSort { w with sorter := s2 }, .ok ())

/-- The unsubscription step of `propertyRemovedHandler`: when
`_propChangedSlots` holds a slot for the property, erase it, and erase the
entry of `_matrixChangedSlots` as well when there is one. -/
def DrawCallZSorter.eraseChangedSlots (s : DrawCallZSorter) (propertyName : String) :
    DrawCallZSorter :=
  if propertyName ∈ s._propChangedSlots then
    let s1 : DrawCallZSorter :=
      { s with _propChangedSlots := s._propChangedSlots.erase propertyName }
    if propertyName ∈ s1._matrixChangedSlots then
      { s1 with _matrixChangedSlots := s1._matrixChangedSlots.erase propertyName }
    else s1
  else s

/-- Embeds `DrawCallZSorter::propertyRemovedHandler(container, propertyName)`. -/
def DrawCallZSorter.propertyRemovedHandler (env : Env) (heap : Heap) (w : World)
    (container : Container) (propertyName : String) : Outcome World :=
  if propertyName ∉ w.sorter._properties then (w, .ok ())
  else
    match DrawCallZSorter.recordIfPositionalMembers env heap w.sorter container propertyName
        false true with
    | (s1, .error e) => ({ w with sorter := s1 }, .error e)
    | (s1, .ok ()) =>
      let s2 := DrawCallZSorter.eraseChangedSlots s1 propertyName
      (DrawCallZSorter.requestZSort { w with sorter := s2 }, .ok ())

/-- Embeds `DrawCallZSorter::clear()`. -/
def DrawCallZSorter.clear (s : DrawCallZSorter) : DrawCallZSorter :=
  { s with
    _targetPropAddedSlot := none
    _targetPropRemovedSlot := none
    _rendererPropAddedSlot := none
    _rendererPropRemovedSlot := none
    _propChangedSlots := ∅
    _matrixChangedSlots := ∅
    _properties := ∅ }

/-- The first loop of `initialize`: `_properties[format(name)] = info` for the
raw properties in the order they are met. -/
def DrawCallZSorter.formatRawProperties (s : DrawCallZSorter) :
    List (Sigma (fun _ : String => PropertyInfo)) → DrawCallZSorter
  | [] => s
  | prop :: rest =>
    let formatted := s._drawcall.formatPropertyName prop.1
    DrawCallZSorter.formatRawProperties
      { s with _properties := s._properties.insert formatted prop.2 } rest

/-- The container `initialize` looks a watched property up in:
`source == RENDERER ? rendererData : targetData`. -/
def DrawCallZSorter.sourceContainer (targetData rendererData : Container)
    (info : PropertyInfo) : Container :=
  if info.source = BindingSource.renderer then rendererData else targetData

/-- Whether the source container of a watched property already holds it. -/
def DrawCallZSorter.isPresent (targetData rendererData : Container)
    (prop : Sigma (fun _ : String => PropertyInfo)) : Bool :=
  (DrawCallZSorter.sourceContainer targetData rendererData prop.2).hasProperty prop.1

/-- The last loop of `initialize`: the property-added handler is run for each
watched property that its source container already holds. -/
def DrawCallZSorter.addPresentProperties (env : Env) (heap : Heap)
    (targetData rendererData : Container) :
    List (Sigma (fun _ : String => PropertyInfo)) → World → Outcome World
  | [], w => (w, .ok ())
  | prop :: rest, w =>
    let container := DrawCallZSorter.sourceContainer targetData rendererData prop.2
    if container.hasProperty prop.1 then
      match DrawCallZSorter.propertyAddedHandler env heap w container prop.1 with
      | (w1, .error e) => (w1, .error e)
      | (w1, .ok ()) =>
        DrawCallZSorter.addPresentProperties env heap targetData rendererData rest w1
    else DrawCallZSorter.addPresentProperties env heap targetData rendererData rest w

/-- The part of `initialize` that precedes its last loop: `clear()`, the
formatted watched names, the names of the three spatial members, the four
structural connections and `_propChangedSlots.clear()`. -/
def DrawCallZSorter.initializeWatch (order : Traversal String PropertyInfo)
    (s : DrawCallZSorter) (targetData rendererData : Container) : DrawCallZSorter :=
  let s0 := DrawCallZSorter.clear s
  let s1 := DrawCallZSorter.formatRawProperties s0 (order.order DrawCallZSorter._rawProperties)
  let s2 : DrawCallZSorter :=
    { s1 with
      _vertexPositions :=
        (s1._drawcall.formatPropertyName "geometry[${geometryId}].position",
          s1._vertexPositions.2)
      _modelToWorldMatrix :=
        (s1._drawcall.formatPropertyName "transform.modelToWorldMatrix",
          s1._modelToWorldMatrix.2)
      _worldToScreenMatrix :=
        (s1._drawcall.formatPropertyName "camera.worldToScreenMatrix",
          s1._worldToScreenMatrix.2) }
  let s3 : DrawCallZSorter :=
    { s2 with
      _targetPropAddedSlot :=
        some ⟨targetData._containerId, .propertyAdded, .propertyAddedHandler⟩
      _rendererPropAddedSlot :=
        some ⟨rendererData._containerId, .propertyAdded, .propertyAddedHandler⟩
      _targetPropRemovedSlot :=
        some ⟨targetData._containerId, .propertyRemoved, .propertyRemovedHandler⟩
      _rendererPropRemovedSlot :=
        some ⟨rendererData._containerId, .propertyRemoved, .propertyRemovedHandler⟩ }
  { s3 with _propChangedSlots := ∅ }

/-- Embeds `DrawCallZSorter::initialize(targetData, rendererData, rootData)`;
`order` is the iteration order of the two `PropertyInfos` maps. -/
def DrawCallZSorter.initialize (env : Env) (heap : Heap)
    (order : Traversal String PropertyInfo) (w : World)
    (targetData rendererData _rootData : Container) : Outcome World :=
  let s4 := DrawCallZSorter.initializeWatch order w.sorter targetData rendererData
  DrawCallZSorter.addPresentProperties env heap targetData rendererData
    (order.order s4._properties) { w with sorter := s4 }

/-- Embeds `DrawCallZSorter::getEyeSpacePosition()`. The arithmetic is exact
where the code computes in 32-bit `float`: the two agree on inputs whose
intermediate values are exactly representable (the zero vector, small
integers), and nothing is claimed about rounding, overflow or NaN. -/
def DrawCallZSorter.getEyeSpacePosition (s : DrawCallZSorter) : Vector3 :=
  let vb := s._vertexPositions.2
  let localPos0 : Vector3 := Vector3.splat 0
  let modelView0 : Matrix4x4 := Matrix4x4.diagonal 1
  let localPos : Vector3 :=
    match vb with
    | some b => b.minPosition.add ((b.maxPosition.sub b.minPosition).scale (1 / 2))
    | none => localPos0
  let modelView1 : Matrix4x4 :=
    match s._modelToWorldMatrix.2 with
    | some m => m
    | none => modelView0
  let modelView2 : Matrix4x4 :=
    match s._worldToScreenMatrix.2 with
    | some m => modelView1.mul m
    | none => modelView1
  ((Vector4.ofVector3 localPos 1).mulMatrix modelView2).xyz

/-- The members that the property handlers and `requestZSort` never write:
the draw call, the watched names, the four structural slots and the names of
the three spatial members. -/
structure DrawCallZSorter.SameWatch (s s1 : DrawCallZSorter) : Prop where
  drawcall : s1._drawcall = s._drawcall
  properties : s1._properties = s._properties
  targetAdded : s1._targetPropAddedSlot = s._targetPropAddedSlot
  targetRemoved : s1._targetPropRemovedSlot = s._targetPropRemovedSlot
  rendererAdded : s1._rendererPropAddedSlot = s._rendererPropAddedSlot
  rendererRemoved : s1._rendererPropRemovedSlot = s._rendererPropRemovedSlot
  positionsName : s1._vertexPositions.1 = s._vertexPositions.1
  modelToWorldName : s1._modelToWorldMatrix.1 = s._modelToWorldMatrix.1
  worldToScreenName : s1._worldToScreenMatrix.1 = s._worldToScreenMatrix.1

/-- The three spatial names of a sorter are pairwise distinct. -/
def DrawCallZSorter.DistinctNames (s : DrawCallZSorter) : Prop :=
  s._vertexPositions.1 ≠ s._modelToWorldMatrix.1
  ∧ s._vertexPositions.1 ≠ s._worldToScreenMatrix.1
  ∧ s._modelToWorldMatrix.1 ≠ s._worldToScreenMatrix.1

/-! ## Provider index -/

/-- Conversion of a `uint` to `int` (two's complement, 32 bits). -/
def uintToInt (n : Nat) : Int :=
  if n % UINT_MOD < 2 ^ 31 then ((n % UINT_MOD : Nat) : Int)
  else ((n % UINT_MOD : Nat) : Int) - (UINT_MOD : Int)

/-- Conversion of an `int` to `uint` (reduction modulo 2^32). -/
def intToUint (i : Int) : Nat := (i % (UINT_MOD : Int)).toNat

/-- Embeds `Container::getProviderIndex(provider)`.  The conditional operator
has a `uint` and an `int` operand, so `-1` is converted to `uint`, and the
`uint` result is converted to the `int` return type. -/
def Container.getProviderIndex (c : Container) (provider : ProviderPtr) : Int :=
  match c._providerToIndex.lookup provider with
  | some index => uintToInt (index % UINT_MOD)
  | none => uintToInt (intToUint (-1))

/-! ## Value-changed events -/

/-- Embeds the lambda that `propertyAddedHandler` connects to the value-changed
signal of a watched property:
`[&](data::Container::Ptr, const std::string&) { requestZSort(); }`. -/
def DrawCallZSorter.valueChangedHandler (w : World) (_container : Container)
    (_propertyName : String) : World :=
  DrawCallZSorter.requestZSort w

/-- What a signal does with a connected slot when it is executed: the slot's
callback is called with the emitting container and the property name. -/
def DrawCallZSorter.runSlot (env : Env) (heap : Heap) (w : World) (slot : Slot)
    (container : Container) (propertyName : String) : Outcome World :=
  match slot.callback with
  | .propertyAddedHandler =>
    DrawCallZSorter.propertyAddedHandler env heap w container propertyName
  | .propertyRemovedHandler =>
    DrawCallZSorter.propertyRemovedHandler env heap w container propertyName
  | .requestZSort => (DrawCallZSorter.valueChangedHandler w container propertyName, .ok ())

/-! ## Matrices used by the examples -/

/-- The identity matrix. -/
def Matrix4x4.identity : Matrix4x4 :=
  ⟨⟨1, 0, 0, 0⟩, ⟨0, 1, 0, 0⟩, ⟨0, 0, 1, 0⟩, ⟨0, 0, 0, 1⟩⟩

/-! ## Concrete inputs -/

namespace Example

/-- An environment whose container-side formatting is the identity. -/
def env : Env where
  debug := true
  formatPropertyName := fun _ name => name
  unformatPropertyName := fun _ _ name => name
  propertyOrder := Traversal.stored String ProviderPtr
  assignIndex := fun _ _ => 0

/-- Provider A of the scenario: it exposes `foo = 1`. -/
def providerA : Provider where
  values := AList.insert "foo" (Value.int 1) ∅

/-- A heap holding provider A at every address. -/
def heapA : Heap := fun _ => providerA

/-- A container to which provider A (address 0) is attached. -/
def containerA : Container where
  _containerId := 7
  _providers := [some 0]
  _propertyNameToProvider := AList.insert "foo" (some 0) ∅
  _providersToNumUse := AList.insert (some 0) 1 ∅
  _providerToIndex := ∅

end Example

namespace Example

/-- A draw-call formatter: material 0 and geometry 0. -/
def formatPropertyName (name : String) : String :=
  if name = "material[${materialId}].priority" then "material[0].priority"
  else if name = "material[${materialId}].zSort" then "material[0].zSort"
  else if name = "geometry[${geometryId}].position" then "geometry[0].position"
  else name

/-- A draw call flagged zSorted. -/
def drawcall : DrawCall := ⟨1, true, formatPropertyName⟩

/-- A draw call that is not flagged zSorted. -/
def drawcallUnsorted : DrawCall := ⟨2, false, formatPropertyName⟩

/-- A translation by (2, 3, 4). -/
def translation : Matrix4x4 := ⟨⟨1, 0, 0, 0⟩, ⟨0, 1, 0, 0⟩, ⟨0, 0, 1, 0⟩, ⟨2, 3, 4, 1⟩⟩

/-- A transform provider. -/
def transformProvider : Provider where
  values := AList.insert "transform.modelToWorldMatrix" (Value.matrix4x4 translation) ∅

/-- A vertex buffer whose bounding box is the single point (1, 1, 1). -/
def pointBuffer : VertexBuffer := ⟨⟨1, 1, 1⟩, ⟨1, 1, 1⟩⟩

/-- A geometry provider. -/
def geometryProvider : Provider where
  values := AList.insert "geometry[0].position" (Value.vertexBufferPtr (some pointBuffer)) ∅

/-- The transform provider lives at address 1, the geometry provider at
address 2, provider A everywhere else. -/
def heap : Heap := fun a =>
  if a = 1 then transformProvider else if a = 2 then geometryProvider else providerA

/-- A target container with no provider. -/
def emptyTarget : Container := Container.create 10

/-- A renderer container with no provider. -/
def emptyRenderer : Container := Container.create 11

/-- A root container with no provider. -/
def emptyRoot : Container := Container.create 12

/-- A target container holding the transform provider. -/
def targetWithTransform : Container where
  _containerId := 10
  _providers := [some 1]
  _propertyNameToProvider := AList.insert "transform.modelToWorldMatrix" (some 1) ∅
  _providersToNumUse := AList.insert (some 1) 1 ∅
  _providerToIndex := ∅

/-- A target container holding the geometry provider and no transform. -/
def targetWithGeometry : Container where
  _containerId := 10
  _providers := [some 2]
  _propertyNameToProvider := AList.insert "geometry[0].position" (some 2) ∅
  _providersToNumUse := AList.insert (some 2) 1 ∅
  _providerToIndex := ∅

/-- A sorter that was just constructed for the zSorted draw call. -/
def fresh : World := ⟨DrawCallZSorter.create drawcall, []⟩

/-- A sorter that was just constructed for the draw call that is not zSorted. -/
def freshUnsorted : World := ⟨DrawCallZSorter.create drawcallUnsorted, []⟩

/-- The fresh sorter after `initialize` on containers with no provider. -/
def initializedFresh : Outcome World :=
  DrawCallZSorter.initialize env heap (Traversal.stored String PropertyInfo) fresh
    emptyTarget emptyRenderer emptyRoot

/-- The sorter left by `initializedFresh`: it watches the five names. -/
def watching : World := initializedFresh.1

/-- The watching sorter after the transform was attached to the target. -/
def withTransform : World :=
  (DrawCallZSorter.propertyAddedHandler env heap watching targetWithTransform
    "transform.modelToWorldMatrix").1

/-- A target container holding the transform and the geometry providers. -/
def targetWithBoth : Container where
  _containerId := 10
  _providers := [some 1, some 2]
  _propertyNameToProvider :=
    AList.insert "geometry[0].position" (some 2)
      (AList.insert "transform.modelToWorldMatrix" (some 1) ∅)
  _providersToNumUse := AList.insert (some 2) 1 (AList.insert (some 1) 1 ∅)
  _providerToIndex := ∅

/-- The sorter that caches the matrix of the transform, initialized again on
containers with no provider. -/
def initializedAgain : Outcome World :=
  DrawCallZSorter.initialize env heap (Traversal.stored String PropertyInfo) withTransform
    emptyTarget emptyRenderer emptyRoot

/-- The fresh sorter after `initialize` on a target that holds a geometry and no
transform. -/
def initializedOnGeometry : Outcome World :=
  DrawCallZSorter.initialize env heap (Traversal.stored String PropertyInfo) fresh
    targetWithGeometry emptyRenderer emptyRoot

/-- The environment of a build without `DEBUG`. -/
def envRelease : Env := { env with debug := false }

/-- The transform provider after its matrix was set to the identity. -/
def movedTransformProvider : Provider where
  values := AList.insert "transform.modelToWorldMatrix" (Value.matrix4x4 Matrix4x4.identity) ∅

/-- The heap after the transform at address 1 was changed. -/
def heapMoved : Heap := Function.update heap 1 movedTransformProvider

/-- The value-changed slot of the model-to-world matrix on the target
container. -/
def transformSlot : Slot :=
  DrawCallZSorter.valueChangedSlot targetWithTransform "transform.modelToWorldMatrix"

/-- A container in which the provider at address 1 has index 0 and the one at
address 2 has index 1. -/
def containerIndexed : Container :=
  { targetWithBoth with
    _providerToIndex := AList.insert (some 2) 1 (AList.insert (some 1) 0 ∅) }

/-- A renderer container that holds the transform provider. -/
def rendererWithTransform : Container :=
  { targetWithTransform with _containerId := 11 }

/-- A root container that holds the transform provider. -/
def rootWithTransform : Container :=
  { targetWithTransform with _containerId := 12 }

/-- The fresh sorter after `initialize` on a target with no provider, while the
renderer and the root containers hold the transform. -/
def initializedOffSource : Outcome World :=
  DrawCallZSorter.initialize env heap (Traversal.stored String PropertyInfo) fresh
    emptyTarget rendererWithTransform rootWithTransform

end Example

/-! ## Typed access: delegation, round trip and failure -/

theorem UMap.index_of_lookup {κ ν : Type} [DecidableEq κ] (m : UMap κ ν) (k : κ) (dflt v : ν)
    (h : m.lookup k = some v) : UMap.index m k dflt = (m, v) := by
  simp [UMap.index, h]

theorem Container.hasProperty_of_lookup (c : Container) (propertyName : String) (p : ProviderPtr)
    (h : c._propertyNameToProvider.lookup propertyName = some p) :
    c.hasProperty propertyName = true := by
  have hmem : propertyName ∈ c._propertyNameToProvider := by
    rw [← AList.lookup_isSome, h]; rfl
  simp [Container.hasProperty, hmem]

theorem Container.assertPropertyExists_of_lookup (c : Container) (propertyName : String)
    (p : ProviderPtr) (h : c._propertyNameToProvider.lookup propertyName = some p) :
    c.assertPropertyExists propertyName = .ok () := by
  simp [Container.assertPropertyExists, Container.hasProperty_of_lookup c propertyName p h]

theorem Container.assertPropertyExists_of_not_hasProperty (c : Container) (propertyName : String)
    (h : c.hasProperty propertyName = false) :
    c.assertPropertyExists propertyName = .error .propertyNotFound := by
  simp [Container.assertPropertyExists, h]

theorem Container.get_eq_provider_get (env : Env) (heap : Heap) (c : Container)
    (propertyName : String) (T : TypeTag) (a : Nat)
    (h : c._propertyNameToProvider.lookup propertyName = some (some a)) :
    Container.get env heap c propertyName T
      = (heap a).get (env.unformatPropertyName c (some a) propertyName) true T := by
  simp [Container.get, Container.assertPropertyExists_of_lookup c propertyName _ h, h]

theorem Container.set_eq_provider_set (env : Env) (heap : Heap) (c : Container)
    (propertyName : String) (value : Value) (a : Nat)
    (h : c._propertyNameToProvider.lookup propertyName = some (some a)) :
    Container.set env heap c propertyName value
      = match (heap a).set (env.unformatPropertyName c (some a) propertyName) value with
        | .error e => ((c, heap), .error e)
        | .ok p1 => ((c, Function.update heap a p1), .ok ()) := by
  simp [Container.set, Container.assertPropertyExists_of_lookup c propertyName _ h,
    UMap.index_of_lookup _ _ _ _ h]

theorem Provider.get_set (p p1 : Provider) (propertyName : String) (value : Value) (b : Bool)
    (h : p.set propertyName value = .ok p1) :
    p1.get propertyName b value.type = .ok value := by
  unfold Provider.set at h
  have hv : p1.values = p.values.insert propertyName value := by
    split at h
    · cases h; rfl
    · split at h
      · cases h; rfl
      · cases h
  simp [Provider.get, hv, AList.lookup_insert]

theorem Provider.set_ok (p : Provider) (propertyName : String) (value : Value)
    (h : ∀ old, p.values.lookup propertyName = some old → old.type = value.type) :
    p.set propertyName value = .ok { values := p.values.insert propertyName value } := by
  unfold Provider.set
  split
  · rfl
  · next old hold => simp [h old hold]


/-- C1: for every container, every property name that the container resolves
to a provider and every value `v` of the property's type `T` (the stored value,
if any, has the type of `v`), `set<T>(name, v)` succeeds, leaves the container
as it was, and a following `get<T>(name)` returns `v`. -/
theorem Container.get_after_set (env : Env) (heap : Heap) (c : Container)
    (propertyName : String) (v : Value) (a : Nat)
    (hname : c._propertyNameToProvider.lookup propertyName = some (some a))
    (htype : ∀ old, (heap a).values.lookup (env.unformatPropertyName c (some a) propertyName)
      = some old → old.type = v.type) :
    (Container.set env heap c propertyName v).2 = .ok ()
    ∧ (Container.set env heap c propertyName v).1.1 = c
    ∧ Container.get env (Container.set env heap c propertyName v).1.2
        (Container.set env heap c propertyName v).1.1 propertyName v.type = .ok v := by
  have hset := Provider.set_ok (heap a) _ v htype
  have hget := Provider.get_set (heap a) _ _ v true hset
  rw [Container.set_eq_provider_set env heap c propertyName v a hname, hset]
  refine ⟨rfl, rfl, ?_⟩
  rw [Container.get_eq_provider_get env _ c propertyName v.type a hname]
  simpa using hget

/-- The scenario of C1: provider A exposes `foo = 1`, so `get<int>("foo")` is 1;
after `set<int>("foo", 2)` it is 2. -/
theorem Container.get_after_set_witness :
    Container.get Example.env Example.heapA Example.containerA "foo" TypeTag.int
      = .ok (Value.int 1)
    ∧ (Container.set Example.env Example.heapA Example.containerA "foo" (Value.int 2)).2 = .ok ()
    ∧ (Container.set Example.env Example.heapA Example.containerA "foo" (Value.int 2)).1.1
      = Example.containerA
    ∧ Container.get Example.env
        (Container.set Example.env Example.heapA Example.containerA "foo" (Value.int 2)).1.2
        (Container.set Example.env Example.heapA Example.containerA "foo" (Value.int 2)).1.1
        "foo" (Value.int 2).type = .ok (Value.int 2) :=
  ⟨by rfl,
   Container.get_after_set Example.env Example.heapA Example.containerA "foo" (Value.int 2) 0
    (by decide)
    (by
      intro old h
      have h1 : Example.providerA.values.lookup "foo" = some (Value.int 1) := by decide
      have h2 : some (Value.int 1) = some old := h1.symm.trans h
      cases h2
      rfl)⟩

/-- C2: for every container and every name that the name-to-provider map sends
to provider `p` (at address `a`), `get<T>(name)` is `p.get<T>(u, true)` and
`set<T>(name, v)` is `p.set<T>(u, v)` written back to the same provider, with
the same `u = unformatPropertyName(p, name)` in both; the container itself is
left as it was. -/
theorem Container.get_set_delegate (env : Env) (heap : Heap) (c : Container)
    (propertyName : String) (a : Nat)
    (hname : c._propertyNameToProvider.lookup propertyName = some (some a)) :
    (∀ T : TypeTag, Container.get env heap c propertyName T
      = (heap a).get (env.unformatPropertyName c (some a) propertyName) true T)
    ∧ (∀ (v : Value) (p1 : Provider),
        (heap a).set (env.unformatPropertyName c (some a) propertyName) v = .ok p1 →
        Container.set env heap c propertyName v = ((c, Function.update heap a p1), .ok ()))
    ∧ (∀ (v : Value) (e : Error),
        (heap a).set (env.unformatPropertyName c (some a) propertyName) v = .error e →
        Container.set env heap c propertyName v = ((c, heap), .error e)) := by
  refine ⟨fun T => Container.get_eq_provider_get env heap c propertyName T a hname, ?_, ?_⟩
  · intro v p1 h
    rw [Container.set_eq_provider_set env heap c propertyName v a hname, h]
  · intro v e h
    rw [Container.set_eq_provider_set env heap c propertyName v a hname, h]

/-- C2 at the container of the scenario, whose `foo` belongs to the provider at
address 0: reading `foo` as an int is the provider's `get`, and writing 2 is
the provider's `set`, written back at address 0. -/
theorem Container.get_set_delegate_witness :
    Container.get Example.env Example.heapA Example.containerA "foo" TypeTag.int
      = (Example.heapA 0).get "foo" true TypeTag.int
    ∧ Container.set Example.env Example.heapA Example.containerA "foo" (Value.int 2)
      = ((Example.containerA,
          Function.update Example.heapA 0
            { values := AList.insert "foo" (Value.int 2) Example.providerA.values }),
         .ok ()) :=
  ⟨(Container.get_set_delegate Example.env Example.heapA Example.containerA "foo" 0
      (by decide)).1 TypeTag.int,
   (Container.get_set_delegate Example.env Example.heapA Example.containerA "foo" 0
      (by decide)).2.1 (Value.int 2) _ rfl⟩

/-- C3: for every container and every name that is not a property of it,
`get<T>`, `set<T>` and `propertyHasType<T>` fail with property-not-found
whatever the heap of providers holds, and `set` hands back the container and
the heap untouched; on a freshly created container this holds for every name. -/
theorem Container.unknown_property_fails (env : Env) (c : Container) (propertyName : String)
    (hno : c.hasProperty propertyName = false) :
    (∀ (heap : Heap) (T : TypeTag),
        Container.get env heap c propertyName T = .error .propertyNotFound)
    ∧ (∀ (heap : Heap) (v : Value),
        Container.set env heap c propertyName v = ((c, heap), .error .propertyNotFound))
    ∧ (∀ (heap : Heap) (T : TypeTag) (skip : Bool),
        Container.propertyHasType env heap c propertyName T skip = .error .propertyNotFound)
    ∧ (∀ (heap : Heap) (containerId : Nat) (name : String) (T : TypeTag) (v : Value),
        (Container.create containerId).hasProperty name = false
        ∧ Container.get env heap (Container.create containerId) name T
            = .error .propertyNotFound
        ∧ Container.set env heap (Container.create containerId) name v
            = ((Container.create containerId, heap), .error .propertyNotFound)) := by
  have hassert := Container.assertPropertyExists_of_not_hasProperty c propertyName hno
  refine ⟨?_, ?_, ?_, ?_⟩
  · intro heap T
    simp [Container.get, hassert]
  · intro heap v
    simp [Container.set, hassert]
  · intro heap T skip
    simp [Container.propertyHasType, hassert]
  · intro heap containerId name T v
    have hc : (Container.create containerId).hasProperty name = false := by
      simp [Container.hasProperty, Container.create]
    have ha := Container.assertPropertyExists_of_not_hasProperty _ name hc
    refine ⟨hc, ?_, ?_⟩
    · simp [Container.get, ha]
    · simp [Container.set, ha]

/-- The scenario of C3: a container with no providers has no property `x`, and
`get<int>("x")` fails with property-not-found. -/
theorem Container.unknown_property_fails_witness :
    (Container.create 0).hasProperty "x" = false
    ∧ Container.get Example.env Example.heapA (Container.create 0) "x" TypeTag.int
        = .error .propertyNotFound
    ∧ Container.set Example.env Example.heapA (Container.create 0) "x" (Value.int 1)
        = ((Container.create 0, Example.heapA), .error .propertyNotFound) :=
  ⟨by decide,
   (Container.unknown_property_fails Example.env (Container.create 0) "x" (by decide)).1
     Example.heapA TypeTag.int,
   (Container.unknown_property_fails Example.env (Container.create 0) "x" (by decide)).2.1
     Example.heapA (Value.int 1)⟩

/-! ## Attaching and detaching providers: the property enumeration -/

theorem Provider.get_type_of_ok (p : Provider) (propertyName : String) (b : Bool) (T : TypeTag)
    (v : Value) (h : p.get propertyName b T = .ok v) : v.type = T := by
  unfold Provider.get at h
  split at h
  · cases h
  · split at h
    · next hty => cases h; exact hty
    · cases h

theorem Container.get_ok_type (env : Env) (heap : Heap) (c : Container) (propertyName : String)
    (T : TypeTag) (v : Value) (h : Container.get env heap c propertyName T = .ok v) :
    v.type = T := by
  unfold Container.get at h
  split at h
  · cases h
  · split at h
    · cases h
    · split at h
      · cases h
      · exact Provider.get_type_of_ok _ _ _ _ _ h

theorem Container.get_vertexBufferPtr (env : Env) (heap : Heap) (c : Container)
    (propertyName : String) (v : Value)
    (h : Container.get env heap c propertyName .vertexBufferPtr = .ok v) :
    ∃ vb, v = .vertexBufferPtr vb := by
  have hty := Container.get_ok_type env heap c propertyName _ v h
  cases v <;> simp [Value.type] at hty
  exact ⟨_, rfl⟩

theorem Container.get_matrix4x4 (env : Env) (heap : Heap) (c : Container)
    (propertyName : String) (v : Value)
    (h : Container.get env heap c propertyName .matrix4x4 = .ok v) :
    ∃ m, v = .matrix4x4 m := by
  have hty := Container.get_ok_type env heap c propertyName _ v h
  cases v <;> simp [Value.type] at hty
  exact ⟨_, rfl⟩

theorem DrawCallZSorter.record_added_positions (env : Env) (heap : Heap) (s : DrawCallZSorter)
    (c : Container) (n : String) (vb : Option VertexBuffer)
    (hn : n = s._vertexPositions.1)
    (hget : Container.get env heap c n .vertexBufferPtr = .ok (.vertexBufferPtr vb)) :
    DrawCallZSorter.recordIfPositionalMembers env heap s c n true false
      = ({ s with _vertexPositions := (s._vertexPositions.1, vb) }, .ok ()) := by
  simp only [DrawCallZSorter.recordIfPositionalMembers, if_true, if_pos hn, hget]

theorem DrawCallZSorter.record_added_modelToWorld (env : Env) (heap : Heap)
    (s : DrawCallZSorter) (c : Container) (n : String) (m : Matrix4x4)
    (h1 : n ≠ s._vertexPositions.1) (hn : n = s._modelToWorldMatrix.1)
    (hget : Container.get env heap c n .matrix4x4 = .ok (.matrix4x4 m)) :
    DrawCallZSorter.recordIfPositionalMembers env heap s c n true false
      = ({ s with _modelToWorldMatrix := (s._modelToWorldMatrix.1, some m) }, .ok ()) := by
  simp only [DrawCallZSorter.recordIfPositionalMembers, if_true, if_neg h1, if_pos hn, hget]

theorem DrawCallZSorter.record_added_worldToScreen (env : Env) (heap : Heap)
    (s : DrawCallZSorter) (c : Container) (n : String) (m : Matrix4x4)
    (h1 : n ≠ s._vertexPositions.1) (h2 : n ≠ s._modelToWorldMatrix.1)
    (hn : n = s._worldToScreenMatrix.1)
    (hget : Container.get env heap c n .matrix4x4 = .ok (.matrix4x4 m)) :
    DrawCallZSorter.recordIfPositionalMembers env heap s c n true false
      = ({ s with _worldToScreenMatrix := (s._worldToScreenMatrix.1, some m) }, .ok ()) := by
  simp only [DrawCallZSorter.recordIfPositionalMembers, if_true, if_neg h1, if_neg h2,
    if_pos hn, hget]

theorem DrawCallZSorter.record_other (env : Env) (heap : Heap)
    (s : DrawCallZSorter) (c : Container) (n : String) (added removed : Bool)
    (h1 : n ≠ s._vertexPositions.1) (h2 : n ≠ s._modelToWorldMatrix.1)
    (h3 : n ≠ s._worldToScreenMatrix.1) :
    DrawCallZSorter.recordIfPositionalMembers env heap s c n added removed = (s, .ok ()) := by
  simp only [DrawCallZSorter.recordIfPositionalMembers, if_neg h1, if_neg h2, if_neg h3]
  cases added <;> cases removed <;> simp

theorem DrawCallZSorter.record_removed (env : Env) (heap : Heap)
    (s : DrawCallZSorter) (c : Container) (n : String) :
    DrawCallZSorter.recordIfPositionalMembers env heap s c n false true
      = (if n = s._vertexPositions.1 then
           { s with _vertexPositions := (s._vertexPositions.1, none) }
         else if n = s._modelToWorldMatrix.1 then
           { s with _modelToWorldMatrix := (s._modelToWorldMatrix.1, none) }
         else if n = s._worldToScreenMatrix.1 then
           { s with _worldToScreenMatrix := (s._worldToScreenMatrix.1, none) }
         else s, .ok ()) := by
  simp only [DrawCallZSorter.recordIfPositionalMembers]
  split_ifs <;> simp_all

theorem DrawCallZSorter.SameWatch.refl (s : DrawCallZSorter) :
    DrawCallZSorter.SameWatch s s :=
  ⟨rfl, rfl, rfl, rfl, rfl, rfl, rfl, rfl, rfl⟩

theorem DrawCallZSorter.SameWatch.trans {s s1 s2 : DrawCallZSorter}
    (h1 : DrawCallZSorter.SameWatch s s1) (h2 : DrawCallZSorter.SameWatch s1 s2) :
    DrawCallZSorter.SameWatch s s2 :=
  ⟨h2.drawcall.trans h1.drawcall, h2.properties.trans h1.properties,
   h2.targetAdded.trans h1.targetAdded, h2.targetRemoved.trans h1.targetRemoved,
   h2.rendererAdded.trans h1.rendererAdded, h2.rendererRemoved.trans h1.rendererRemoved,
   h2.positionsName.trans h1.positionsName, h2.modelToWorldName.trans h1.modelToWorldName,
   h2.worldToScreenName.trans h1.worldToScreenName⟩

/-- What a successful `recordIfPositionalMembers(…, true, false)` leaves
untouched. -/
theorem DrawCallZSorter.record_added_frame (env : Env) (heap : Heap)
    (s s1 : DrawCallZSorter) (c : Container) (n : String)
    (h : DrawCallZSorter.recordIfPositionalMembers env heap s c n true false = (s1, .ok ())) :
    DrawCallZSorter.SameWatch s s1
    ∧ s1._propChangedSlots = s._propChangedSlots
    ∧ s1._matrixChangedSlots = s._matrixChangedSlots
    ∧ (n ≠ s._vertexPositions.1 → s1._vertexPositions = s._vertexPositions)
    ∧ (n ≠ s._modelToWorldMatrix.1 → s1._modelToWorldMatrix = s._modelToWorldMatrix)
    ∧ (n ≠ s._worldToScreenMatrix.1 → s1._worldToScreenMatrix = s._worldToScreenMatrix) := by
  simp only [DrawCallZSorter.recordIfPositionalMembers, if_true] at h
  split_ifs at h with h1 h2 h3
  · split at h <;> simp only [Prod.mk.injEq, reduceCtorEq, and_false] at h
    obtain ⟨rfl, -⟩ := h
    exact ⟨⟨rfl, rfl, rfl, rfl, rfl, rfl, rfl, rfl, rfl⟩, rfl, rfl, fun h => absurd h1 h,
      fun _ => rfl, fun _ => rfl⟩
  · split at h <;> simp only [Prod.mk.injEq, reduceCtorEq, and_false] at h
    obtain ⟨rfl, -⟩ := h
    exact ⟨⟨rfl, rfl, rfl, rfl, rfl, rfl, rfl, rfl, rfl⟩, rfl, rfl, fun _ => rfl,
      fun h => absurd h2 h, fun _ => rfl⟩
  · split at h <;> simp only [Prod.mk.injEq, reduceCtorEq, and_false] at h
    obtain ⟨rfl, -⟩ := h
    exact ⟨⟨rfl, rfl, rfl, rfl, rfl, rfl, rfl, rfl, rfl⟩, rfl, rfl, fun _ => rfl,
      fun _ => rfl, fun h => absurd h3 h⟩
  · simp only [Prod.mk.injEq, and_true] at h
    subst h
    exact ⟨DrawCallZSorter.SameWatch.refl _, rfl, rfl, fun _ => rfl, fun _ => rfl,
      fun _ => rfl⟩

/-- When the container answers the typed reads of the spatial names,
`recordIfPositionalMembers(…, true, false)` succeeds and caches what it read. -/
theorem DrawCallZSorter.record_added_ok (env : Env) (heap : Heap) (s : DrawCallZSorter)
    (c : Container) (n : String)
    (hvb : n = s._vertexPositions.1 →
      ∃ v, Container.get env heap c n .vertexBufferPtr = .ok v)
    (hmw : n = s._modelToWorldMatrix.1 → ∃ v, Container.get env heap c n .matrix4x4 = .ok v)
    (hws : n = s._worldToScreenMatrix.1 → ∃ v, Container.get env heap c n .matrix4x4 = .ok v) :
    ∃ s1, DrawCallZSorter.recordIfPositionalMembers env heap s c n true false = (s1, .ok ())
      ∧ (n = s._vertexPositions.1 →
          Container.get env heap c n .vertexBufferPtr = .ok (.vertexBufferPtr s1._vertexPositions.2))
      ∧ (n ≠ s._vertexPositions.1 → n = s._modelToWorldMatrix.1 →
          ∃ m, s1._modelToWorldMatrix.2 = some m
            ∧ Container.get env heap c n .matrix4x4 = .ok (.matrix4x4 m))
      ∧ (n ≠ s._vertexPositions.1 → n ≠ s._modelToWorldMatrix.1 →
          n = s._worldToScreenMatrix.1 →
          ∃ m, s1._worldToScreenMatrix.2 = some m
            ∧ Container.get env heap c n .matrix4x4 = .ok (.matrix4x4 m)) := by
  by_cases h1 : n = s._vertexPositions.1
  · obtain ⟨v, hv⟩ := hvb h1
    obtain ⟨vb, rfl⟩ := Container.get_vertexBufferPtr env heap c n v hv
    refine ⟨_, DrawCallZSorter.record_added_positions env heap s c n vb h1 hv, ?_, ?_, ?_⟩
    · intro _; exact hv
    · intro h; exact absurd h1 h
    · intro h; exact absurd h1 h
  · by_cases h2 : n = s._modelToWorldMatrix.1
    · obtain ⟨v, hv⟩ := hmw h2
      obtain ⟨m, rfl⟩ := Container.get_matrix4x4 env heap c n v hv
      refine ⟨_, DrawCallZSorter.record_added_modelToWorld env heap s c n m h1 h2 hv, ?_, ?_, ?_⟩
      · intro h; exact absurd h h1
      · intro _ _; exact ⟨m, rfl, hv⟩
      · intro _ h; exact absurd h2 h
    · by_cases h3 : n = s._worldToScreenMatrix.1
      · obtain ⟨v, hv⟩ := hws h3
        obtain ⟨m, rfl⟩ := Container.get_matrix4x4 env heap c n v hv
        refine ⟨_, DrawCallZSorter.record_added_worldToScreen env heap s c n m h1 h2 h3 hv,
          ?_, ?_, ?_⟩
        · intro h; exact absurd h h1
        · intro _ h; exact absurd h h2
        · intro _ _ _; exact ⟨m, rfl, hv⟩
      · refine ⟨s, DrawCallZSorter.record_other env heap s c n true false h1 h2 h3, ?_, ?_, ?_⟩
        · intro h; exact absurd h h1
        · intro _ h; exact absurd h h2
        · intro _ _ h; exact absurd h h3

/-- The property-added handler for a watched name, once the spatial members
are recorded: subscribe unless subscribed, then one `requestZSort()`. -/
theorem DrawCallZSorter.propertyAdded_of_record (env : Env) (heap : Heap) (w : World)
    (c : Container) (n : String) (s1 : DrawCallZSorter)
    (hwatched : n ∈ w.sorter._properties)
    (hrec : DrawCallZSorter.recordIfPositionalMembers env heap w.sorter c n true false
      = (s1, .ok ())) :
    DrawCallZSorter.propertyAddedHandler env heap w c n
      = (DrawCallZSorter.requestZSort
          ⟨DrawCallZSorter.connectValueChanged s1 c n, w.zsortNeeded⟩, .ok ()) := by
  obtain ⟨info, hinfo⟩ := Option.isSome_iff_exists.mp (AList.lookup_isSome.mpr hwatched)
  simp only [DrawCallZSorter.propertyAddedHandler, hinfo, hrec]

/-- What `connectValueChanged` does to the slots, and that it touches nothing
else. -/
theorem DrawCallZSorter.connectValueChanged_facts (s : DrawCallZSorter) (c : Container)
    (n : String) :
    (DrawCallZSorter.connectValueChanged s c n)._propChangedSlots.lookup n
        = some ((s._propChangedSlots.lookup n).getD (DrawCallZSorter.valueChangedSlot c n))
    ∧ (∀ m, m ≠ n → (DrawCallZSorter.connectValueChanged s c n)._propChangedSlots.lookup m
        = s._propChangedSlots.lookup m)
    ∧ DrawCallZSorter.SameWatch s (DrawCallZSorter.connectValueChanged s c n)
    ∧ (DrawCallZSorter.connectValueChanged s c n)._matrixChangedSlots = s._matrixChangedSlots
    ∧ (DrawCallZSorter.connectValueChanged s c n)._vertexPositions = s._vertexPositions
    ∧ (DrawCallZSorter.connectValueChanged s c n)._modelToWorldMatrix = s._modelToWorldMatrix
    ∧ (DrawCallZSorter.connectValueChanged s c n)._worldToScreenMatrix
        = s._worldToScreenMatrix := by
  unfold DrawCallZSorter.connectValueChanged
  by_cases hmem : n ∈ s._propChangedSlots
  · obtain ⟨sl, hsl⟩ := Option.isSome_iff_exists.mp (AList.lookup_isSome.mpr hmem)
    rw [if_pos hmem]
    exact ⟨by rw [hsl]; rfl, fun _ _ => rfl, DrawCallZSorter.SameWatch.refl _, rfl, rfl, rfl,
      rfl⟩
  · rw [if_neg hmem]
    refine ⟨?_, ?_, ⟨rfl, rfl, rfl, rfl, rfl, rfl, rfl, rfl, rfl⟩, rfl, rfl, rfl, rfl⟩
    · show AList.lookup n (AList.insert n (DrawCallZSorter.valueChangedSlot c n)
        s._propChangedSlots) = _
      rw [AList.lookup_insert, AList.lookup_eq_none.mpr hmem]; rfl
    · intro m hm
      show AList.lookup m (AList.insert n (DrawCallZSorter.valueChangedSlot c n)
        s._propChangedSlots) = _
      rw [AList.lookup_insert_ne hm]

/-- What `eraseChangedSlots` does to the slots, and that it touches nothing
else. -/
theorem DrawCallZSorter.eraseChangedSlots_facts (s : DrawCallZSorter) (n : String) :
    n ∉ (DrawCallZSorter.eraseChangedSlots s n)._propChangedSlots
    ∧ (∀ m, m ≠ n → (DrawCallZSorter.eraseChangedSlots s n)._propChangedSlots.lookup m
        = s._propChangedSlots.lookup m)
    ∧ (n ∈ s._propChangedSlots → n ∉ (DrawCallZSorter.eraseChangedSlots s n)._matrixChangedSlots)
    ∧ (∀ m, m ≠ n → (DrawCallZSorter.eraseChangedSlots s n)._matrixChangedSlots.lookup m
        = s._matrixChangedSlots.lookup m)
    ∧ DrawCallZSorter.SameWatch s (DrawCallZSorter.eraseChangedSlots s n)
    ∧ (DrawCallZSorter.eraseChangedSlots s n)._vertexPositions = s._vertexPositions
    ∧ (DrawCallZSorter.eraseChangedSlots s n)._modelToWorldMatrix = s._modelToWorldMatrix
    ∧ (DrawCallZSorter.eraseChangedSlots s n)._worldToScreenMatrix
        = s._worldToScreenMatrix := by
  unfold DrawCallZSorter.eraseChangedSlots
  by_cases hmem : n ∈ s._propChangedSlots
  · rw [if_pos hmem]
    dsimp only
    split_ifs with hmat
    · refine ⟨?_, ?_, ?_, ?_, ⟨rfl, rfl, rfl, rfl, rfl, rfl, rfl, rfl, rfl⟩, rfl, rfl, rfl⟩
      · simp [AList.mem_erase]
      · intro m hm; simp [AList.lookup_erase_ne hm]
      · intro _; simp [AList.mem_erase]
      · intro m hm; simp [AList.lookup_erase_ne hm]
    · refine ⟨?_, ?_, ?_, ?_, ⟨rfl, rfl, rfl, rfl, rfl, rfl, rfl, rfl, rfl⟩, rfl, rfl, rfl⟩
      · simp [AList.mem_erase]
      · intro m hm; simp [AList.lookup_erase_ne hm]
      · intro _; exact hmat
      · intro m _; rfl
  · rw [if_neg hmem]
    exact ⟨hmem, fun _ _ => rfl, fun h => absurd h hmem, fun _ _ => rfl,
      DrawCallZSorter.SameWatch.refl _, rfl, rfl, rfl⟩

/-- The call `recordIfPositionalMembers(…, false, true)` never fails; it clears the
first spatial member whose name is the property and touches nothing else. -/
theorem DrawCallZSorter.record_removed_ok (env : Env) (heap : Heap) (s : DrawCallZSorter)
    (c : Container) (n : String) :
    ∃ s1, DrawCallZSorter.recordIfPositionalMembers env heap s c n false true = (s1, .ok ())
      ∧ DrawCallZSorter.SameWatch s s1
      ∧ s1._propChangedSlots = s._propChangedSlots
      ∧ s1._matrixChangedSlots = s._matrixChangedSlots
      ∧ (n = s._vertexPositions.1 → s1._vertexPositions.2 = none)
      ∧ (n ≠ s._vertexPositions.1 → n = s._modelToWorldMatrix.1 →
          s1._modelToWorldMatrix.2 = none)
      ∧ (n ≠ s._vertexPositions.1 → n ≠ s._modelToWorldMatrix.1 →
          n = s._worldToScreenMatrix.1 → s1._worldToScreenMatrix.2 = none)
      ∧ (n ≠ s._vertexPositions.1 → s1._vertexPositions = s._vertexPositions)
      ∧ (n ≠ s._modelToWorldMatrix.1 → s1._modelToWorldMatrix = s._modelToWorldMatrix)
      ∧ (n ≠ s._worldToScreenMatrix.1 → s1._worldToScreenMatrix = s._worldToScreenMatrix) := by
  rw [DrawCallZSorter.record_removed]
  refine ⟨_, rfl, ?_⟩
  by_cases h1 : n = s._vertexPositions.1
  · rw [if_pos h1]
    exact ⟨⟨rfl, rfl, rfl, rfl, rfl, rfl, rfl, rfl, rfl⟩, rfl, rfl, fun _ => rfl, fun h => absurd h1 h,
      fun h => absurd h1 h, fun h => absurd h1 h, fun _ => rfl, fun _ => rfl⟩
  · rw [if_neg h1]
    by_cases h2 : n = s._modelToWorldMatrix.1
    · rw [if_pos h2]
      exact ⟨⟨rfl, rfl, rfl, rfl, rfl, rfl, rfl, rfl, rfl⟩, rfl, rfl, fun h => absurd h h1, fun _ _ => rfl,
        fun _ h => absurd h2 h, fun _ => rfl, fun h => absurd h2 h, fun _ => rfl⟩
    · rw [if_neg h2]
      by_cases h3 : n = s._worldToScreenMatrix.1
      · rw [if_pos h3]
        exact ⟨⟨rfl, rfl, rfl, rfl, rfl, rfl, rfl, rfl, rfl⟩, rfl, rfl, fun h => absurd h h1, fun _ h => absurd h h2,
          fun _ _ _ => rfl, fun _ => rfl, fun _ => rfl, fun h => absurd h3 h⟩
      · rw [if_neg h3]
        exact ⟨⟨rfl, rfl, rfl, rfl, rfl, rfl, rfl, rfl, rfl⟩, rfl, rfl, fun h => absurd h h1, fun _ h => absurd h h2,
          fun _ _ h => absurd h h3, fun _ => rfl, fun _ => rfl, fun _ => rfl⟩

/-- The property-removed handler for a watched name: clear the spatial member,
drop the slots, then one `requestZSort()`. -/
theorem DrawCallZSorter.propertyRemoved_of_record (env : Env) (heap : Heap) (w : World)
    (c : Container) (n : String) (s1 : DrawCallZSorter)
    (hwatched : n ∈ w.sorter._properties)
    (hrec : DrawCallZSorter.recordIfPositionalMembers env heap w.sorter c n false true
      = (s1, .ok ())) :
    DrawCallZSorter.propertyRemovedHandler env heap w c n
      = (DrawCallZSorter.requestZSort
          ⟨DrawCallZSorter.eraseChangedSlots s1 n, w.zsortNeeded⟩, .ok ()) := by
  simp only [DrawCallZSorter.propertyRemovedHandler, hwatched, not_true_eq_false, if_false,
    hrec]

theorem DrawCallZSorter.requestZSort_sorter (w : World) :
    (DrawCallZSorter.requestZSort w).sorter = w.sorter := by
  unfold DrawCallZSorter.requestZSort
  split <;> rfl

theorem DrawCallZSorter.requestZSort_log (w : World) :
    (DrawCallZSorter.requestZSort w).zsortNeeded
      = w.zsortNeeded ++ (if w.sorter._drawcall.zSorted then [w.sorter._drawcall.id] else []) := by
  unfold DrawCallZSorter.requestZSort
  split <;> simp

theorem DrawCallZSorter.requestZSort_idem_form (w : World) :
    DrawCallZSorter.requestZSort w
      = DrawCallZSorter.requestZSort ⟨(DrawCallZSorter.requestZSort w).sorter, w.zsortNeeded⟩ := by
  rw [DrawCallZSorter.requestZSort_sorter]

/-- C5: for every sorter state whose three spatial names are distinct and every
property-added event for a watched name that the emitting container can read
with the spatial type, `propertyAddedHandler` succeeds and afterwards: the name
has exactly one value-changed slot (the one it had, else a new one on the
emitting container), the slots of other names are as before, the cached
position buffer / model-to-world / world-to-screen value of that name equals
the container's current value, and `requestZSort()` has been run once on the
unchanged signal record. -/
theorem DrawCallZSorter.propertyAddedHandler_watched (env : Env) (heap : Heap) (w : World)
    (container : Container) (propertyName : String)
    (hwatched : propertyName ∈ w.sorter._properties)
    (hdistinct : w.sorter._vertexPositions.1 ≠ w.sorter._modelToWorldMatrix.1
      ∧ w.sorter._vertexPositions.1 ≠ w.sorter._worldToScreenMatrix.1
      ∧ w.sorter._modelToWorldMatrix.1 ≠ w.sorter._worldToScreenMatrix.1)
    (hvb : propertyName = w.sorter._vertexPositions.1 →
      ∃ v, Container.get env heap container propertyName .vertexBufferPtr = .ok v)
    (hmw : propertyName = w.sorter._modelToWorldMatrix.1 →
      ∃ v, Container.get env heap container propertyName .matrix4x4 = .ok v)
    (hws : propertyName = w.sorter._worldToScreenMatrix.1 →
      ∃ v, Container.get env heap container propertyName .matrix4x4 = .ok v) :
    ∃ w1, DrawCallZSorter.propertyAddedHandler env heap w container propertyName = (w1, .ok ())
      ∧ w1.sorter._propChangedSlots.lookup propertyName
          = some ((w.sorter._propChangedSlots.lookup propertyName).getD
              (DrawCallZSorter.valueChangedSlot container propertyName))
      ∧ w1.sorter._propChangedSlots.keys.count propertyName = 1
      ∧ (∀ n, n ≠ propertyName →
          w1.sorter._propChangedSlots.lookup n = w.sorter._propChangedSlots.lookup n)
      ∧ (propertyName = w.sorter._vertexPositions.1 →
          Container.get env heap container propertyName .vertexBufferPtr
            = .ok (.vertexBufferPtr w1.sorter._vertexPositions.2))
      ∧ (propertyName = w.sorter._modelToWorldMatrix.1 →
          ∃ m, w1.sorter._modelToWorldMatrix.2 = some m
            ∧ Container.get env heap container propertyName .matrix4x4 = .ok (.matrix4x4 m))
      ∧ (propertyName = w.sorter._worldToScreenMatrix.1 →
          ∃ m, w1.sorter._worldToScreenMatrix.2 = some m
            ∧ Container.get env heap container propertyName .matrix4x4 = .ok (.matrix4x4 m))
      ∧ w1.sorter._drawcall = w.sorter._drawcall
      ∧ w1.sorter._properties = w.sorter._properties
      ∧ w1 = DrawCallZSorter.requestZSort ⟨w1.sorter, w.zsortNeeded⟩ := by
  obtain ⟨hd1, hd2, hd3⟩ := hdistinct
  obtain ⟨s1, hrec, hc1, hc2, hc3⟩ :=
    DrawCallZSorter.record_added_ok env heap w.sorter container propertyName hvb hmw hws
  obtain ⟨hsame, hslots, -, -, -, -⟩ :=
    DrawCallZSorter.record_added_frame env heap w.sorter s1 container propertyName hrec
  obtain ⟨hk1, hk2, hksame, -, hk6, hk7, hk8⟩ :=
    DrawCallZSorter.connectValueChanged_facts s1 container propertyName
  refine ⟨_, DrawCallZSorter.propertyAdded_of_record env heap w container propertyName s1
    hwatched hrec, ?_, ?_, ?_, ?_, ?_, ?_, ?_, ?_, ?_⟩
  · rw [DrawCallZSorter.requestZSort_sorter]
    show AList.lookup propertyName
      (DrawCallZSorter.connectValueChanged s1 container propertyName)._propChangedSlots = _
    rw [hk1, hslots]
  · rw [DrawCallZSorter.requestZSort_sorter]
    apply List.count_eq_one_of_mem (AList.keys_nodup _)
    rw [← AList.mem_keys, ← AList.lookup_isSome]
    show (AList.lookup propertyName
      (DrawCallZSorter.connectValueChanged s1 container propertyName)._propChangedSlots).isSome
        = true
    rw [hk1]; rfl
  · intro n hn
    rw [DrawCallZSorter.requestZSort_sorter]
    show AList.lookup n
      (DrawCallZSorter.connectValueChanged s1 container propertyName)._propChangedSlots = _
    rw [hk2 n hn, hslots]
  · intro h
    rw [DrawCallZSorter.requestZSort_sorter]
    show _ = Except.ok (Value.vertexBufferPtr
      (DrawCallZSorter.connectValueChanged s1 container propertyName)._vertexPositions.2)
    rw [hk6]
    exact hc1 h
  · intro h
    rw [DrawCallZSorter.requestZSort_sorter]
    show ∃ m, (DrawCallZSorter.connectValueChanged s1 container propertyName)._modelToWorldMatrix.2
      = some m ∧ _
    rw [hk7]
    exact hc2 (fun h1 => hd1 (h1.symm.trans h)) h
  · intro h
    rw [DrawCallZSorter.requestZSort_sorter]
    show ∃ m, (DrawCallZSorter.connectValueChanged s1 container propertyName)._worldToScreenMatrix.2
      = some m ∧ _
    rw [hk8]
    exact hc3 (fun h1 => hd2 (h1.symm.trans h)) (fun h1 => hd3 (h1.symm.trans h)) h
  · rw [DrawCallZSorter.requestZSort_sorter]
    exact (hsame.trans hksame).drawcall
  · rw [DrawCallZSorter.requestZSort_sorter]
    exact (hsame.trans hksame).properties
  · exact DrawCallZSorter.requestZSort_idem_form _

/-- C6: for every sorter state whose three spatial names are distinct and every
property-removed event for a watched name, `propertyRemovedHandler` succeeds
and afterwards: the cached spatial value of that name is absent, the name has
no value-changed slot, the cached values and the slots of all other names are
as before, and `requestZSort()` has been run once on the unchanged signal
record. -/
theorem DrawCallZSorter.propertyRemovedHandler_watched (env : Env) (heap : Heap) (w : World)
    (container : Container) (propertyName : String)
    (hwatched : propertyName ∈ w.sorter._properties)
    (hdistinct : w.sorter._vertexPositions.1 ≠ w.sorter._modelToWorldMatrix.1
      ∧ w.sorter._vertexPositions.1 ≠ w.sorter._worldToScreenMatrix.1
      ∧ w.sorter._modelToWorldMatrix.1 ≠ w.sorter._worldToScreenMatrix.1) :
    ∃ w1, DrawCallZSorter.propertyRemovedHandler env heap w container propertyName
        = (w1, .ok ())
      ∧ (propertyName = w.sorter._vertexPositions.1 → w1.sorter._vertexPositions.2 = none)
      ∧ (propertyName = w.sorter._modelToWorldMatrix.1 →
          w1.sorter._modelToWorldMatrix.2 = none)
      ∧ (propertyName = w.sorter._worldToScreenMatrix.1 →
          w1.sorter._worldToScreenMatrix.2 = none)
      ∧ (propertyName ≠ w.sorter._vertexPositions.1 →
          w1.sorter._vertexPositions = w.sorter._vertexPositions)
      ∧ (propertyName ≠ w.sorter._modelToWorldMatrix.1 →
          w1.sorter._modelToWorldMatrix = w.sorter._modelToWorldMatrix)
      ∧ (propertyName ≠ w.sorter._worldToScreenMatrix.1 →
          w1.sorter._worldToScreenMatrix = w.sorter._worldToScreenMatrix)
      ∧ propertyName ∉ w1.sorter._propChangedSlots
      ∧ (∀ n, n ≠ propertyName →
          w1.sorter._propChangedSlots.lookup n = w.sorter._propChangedSlots.lookup n)
      ∧ (propertyName ∈ w.sorter._propChangedSlots →
          propertyName ∉ w1.sorter._matrixChangedSlots)
      ∧ (∀ n, n ≠ propertyName →
          w1.sorter._matrixChangedSlots.lookup n = w.sorter._matrixChangedSlots.lookup n)
      ∧ w1.sorter._drawcall = w.sorter._drawcall
      ∧ w1.sorter._properties = w.sorter._properties
      ∧ w1 = DrawCallZSorter.requestZSort ⟨w1.sorter, w.zsortNeeded⟩ := by
  obtain ⟨hd1, hd2, hd3⟩ := hdistinct
  obtain ⟨s1, hrec, hsame, hslots, hmat, hc1, hc2, hc3, hf1, hf2, hf3⟩ :=
    DrawCallZSorter.record_removed_ok env heap w.sorter container propertyName
  obtain ⟨he1, he2, he3, he4, hesame, he7, he8, he9⟩ :=
    DrawCallZSorter.eraseChangedSlots_facts s1 propertyName
  refine ⟨_, DrawCallZSorter.propertyRemoved_of_record env heap w container propertyName s1
    hwatched hrec, ?_⟩
  rw [DrawCallZSorter.requestZSort_sorter]
  dsimp only
  refine ⟨?_, ?_, ?_, ?_, ?_, ?_, he1, ?_, ?_, ?_, ?_, ?_, ?_⟩
  · intro h
    rw [he7]; exact hc1 h
  · intro h
    rw [he8]; exact hc2 (fun h1 => hd1 (h1.symm.trans h)) h
  · intro h
    rw [he9]
    exact hc3 (fun h1 => hd2 (h1.symm.trans h)) (fun h1 => hd3 (h1.symm.trans h)) h
  · intro h
    rw [he7]; exact hf1 h
  · intro h
    rw [he8]; exact hf2 h
  · intro h
    rw [he9]; exact hf3 h
  · intro n hn
    rw [he2 n hn, hslots]
  · intro h
    exact he3 (hslots ▸ h)
  · intro n hn
    rw [he4 n hn, hmat]
  · exact (hsame.trans hesame).drawcall
  · exact (hsame.trans hesame).properties
  · rfl

/-- C7: `requestZSort()` leaves everything as it was when the draw call is not
flagged zSorted; when it is flagged, the draw call's `zsortNeeded` signal is
executed exactly once more, with that draw call as argument, and the sorter is
left as it was. -/
theorem DrawCallZSorter.requestZSort_effect (w : World) :
    (w.sorter._drawcall.zSorted = false → DrawCallZSorter.requestZSort w = w)
    ∧ (w.sorter._drawcall.zSorted = true →
        (DrawCallZSorter.requestZSort w).zsortNeeded = w.zsortNeeded ++ [w.sorter._drawcall.id]
        ∧ (DrawCallZSorter.requestZSort w).sorter = w.sorter) := by
  constructor
  · intro h
    simp [DrawCallZSorter.requestZSort, h]
  · intro h
    simp [DrawCallZSorter.requestZSort, h]

/-- C5 at a watching sorter, for the model-to-world matrix of a transform that
was just attached to the target container. -/
theorem DrawCallZSorter.propertyAddedHandler_watched_witness :
    ∃ w1, DrawCallZSorter.propertyAddedHandler Example.env Example.heap Example.watching
        Example.targetWithTransform "transform.modelToWorldMatrix" = (w1, .ok ())
      ∧ w1.sorter._propChangedSlots.lookup "transform.modelToWorldMatrix"
          = some ⟨10, .propertyValueChanged "transform.modelToWorldMatrix", .requestZSort⟩
      ∧ w1.sorter._propChangedSlots.keys.count "transform.modelToWorldMatrix" = 1
      ∧ w1.sorter._modelToWorldMatrix.2 = some Example.translation
      ∧ w1.zsortNeeded = [1] := by
  obtain ⟨w1, h1, h2, h3, -, -, h6, -, hdc, -, h8⟩ :=
    DrawCallZSorter.propertyAddedHandler_watched Example.env Example.heap Example.watching
      Example.targetWithTransform "transform.modelToWorldMatrix"
      (by decide) (by decide) (fun h => absurd h (by decide)) (fun _ => ⟨_, rfl⟩)
      (fun h => absurd h (by decide))
  refine ⟨w1, h1, ?_, h3, ?_, ?_⟩
  · rw [h2]; rfl
  · obtain ⟨m, hm, hget⟩ := h6 rfl
    rw [hm]
    have hval : Container.get Example.env Example.heap Example.targetWithTransform
        "transform.modelToWorldMatrix" .matrix4x4 = .ok (.matrix4x4 Example.translation) := rfl
    rw [hval] at hget
    cases hget
    rfl
  · rw [h8, DrawCallZSorter.requestZSort_log]
    show Example.watching.zsortNeeded ++ (if w1.sorter._drawcall.zSorted = true
      then [w1.sorter._drawcall.id] else []) = [1]
    rw [hdc]; rfl

/-- C6 at the sorter that caches the model-to-world matrix of the attached
transform, when that property is removed. -/
theorem DrawCallZSorter.propertyRemovedHandler_watched_witness :
    Example.withTransform.sorter._modelToWorldMatrix.2 = some Example.translation
    ∧ "transform.modelToWorldMatrix" ∈ Example.withTransform.sorter._propChangedSlots
    ∧ ∃ w1, DrawCallZSorter.propertyRemovedHandler Example.env Example.heap
        Example.withTransform Example.targetWithTransform "transform.modelToWorldMatrix"
          = (w1, .ok ())
      ∧ w1.sorter._modelToWorldMatrix.2 = none
      ∧ "transform.modelToWorldMatrix" ∉ w1.sorter._propChangedSlots
      ∧ w1.zsortNeeded = [1, 1] := by
  refine ⟨rfl, by decide, ?_⟩
  obtain ⟨w1, h1, -, h3, -, -, -, -, h8, -, -, -, hdc, -, hz⟩ :=
    DrawCallZSorter.propertyRemovedHandler_watched Example.env Example.heap
      Example.withTransform Example.targetWithTransform "transform.modelToWorldMatrix"
      (by decide) (by decide)
  refine ⟨w1, h1, h3 rfl, h8, ?_⟩
  rw [hz, DrawCallZSorter.requestZSort_log]
  show Example.withTransform.zsortNeeded ++ (if w1.sorter._drawcall.zSorted = true
    then [w1.sorter._drawcall.id] else []) = [1, 1]
  rw [hdc]; rfl

/-- C7 at a draw call that is not flagged zSorted and at one that is. -/
theorem DrawCallZSorter.requestZSort_effect_witness :
    DrawCallZSorter.requestZSort Example.freshUnsorted = Example.freshUnsorted
    ∧ (DrawCallZSorter.requestZSort Example.fresh).zsortNeeded = [] ++ [1]
    ∧ (DrawCallZSorter.requestZSort Example.fresh).sorter = Example.fresh.sorter :=
  ⟨(DrawCallZSorter.requestZSort_effect Example.freshUnsorted).1 rfl,
   (DrawCallZSorter.requestZSort_effect Example.fresh).2 rfl⟩

/-! ## Z-sorter: `initialize` -/

theorem DrawCallZSorter.requestZSort_mk (s : DrawCallZSorter) (l : List Nat) :
    DrawCallZSorter.requestZSort ⟨s, l⟩
      = ⟨s, l ++ (if s._drawcall.zSorted then [s._drawcall.id] else [])⟩ := by
  unfold DrawCallZSorter.requestZSort
  split <;> simp_all

theorem DrawCallZSorter.requestZSort_iterate (k : Nat) (s : DrawCallZSorter) (l : List Nat) :
    (DrawCallZSorter.requestZSort^[k]) ⟨s, l⟩
      = ⟨s, l ++ (if s._drawcall.zSorted then List.replicate k s._drawcall.id else [])⟩ := by
  induction k generalizing l with
  | zero => simp
  | succ k ih =>
    rw [Function.iterate_succ_apply, DrawCallZSorter.requestZSort_mk, ih]
    by_cases hz : s._drawcall.zSorted = true
    · simp [hz, List.replicate_succ]
    · simp [hz]

/-- One run of the property-added handler for a watched name that the
container can read with the spatial type. -/
theorem DrawCallZSorter.propertyAdded_step (env : Env) (heap : Heap) (w : World)
    (c : Container) (n : String)
    (hwatched : n ∈ w.sorter._properties)
    (hvb : n = w.sorter._vertexPositions.1 →
      ∃ v, Container.get env heap c n .vertexBufferPtr = .ok v)
    (hmw : n = w.sorter._modelToWorldMatrix.1 →
      ∃ v, Container.get env heap c n .matrix4x4 = .ok v)
    (hws : n = w.sorter._worldToScreenMatrix.1 →
      ∃ v, Container.get env heap c n .matrix4x4 = .ok v) :
    ∃ w1, DrawCallZSorter.propertyAddedHandler env heap w c n = (w1, .ok ())
      ∧ DrawCallZSorter.SameWatch w.sorter w1.sorter
      ∧ w1.sorter._matrixChangedSlots = w.sorter._matrixChangedSlots
      ∧ w1.sorter._propChangedSlots.lookup n
          = some ((w.sorter._propChangedSlots.lookup n).getD
              (DrawCallZSorter.valueChangedSlot c n))
      ∧ (∀ m, m ≠ n →
          w1.sorter._propChangedSlots.lookup m = w.sorter._propChangedSlots.lookup m)
      ∧ (n = w.sorter._vertexPositions.1 →
          Container.get env heap c n .vertexBufferPtr
            = .ok (.vertexBufferPtr w1.sorter._vertexPositions.2))
      ∧ (n ≠ w.sorter._vertexPositions.1 → n = w.sorter._modelToWorldMatrix.1 →
          ∃ m, w1.sorter._modelToWorldMatrix.2 = some m
            ∧ Container.get env heap c n .matrix4x4 = .ok (.matrix4x4 m))
      ∧ (n ≠ w.sorter._vertexPositions.1 → n ≠ w.sorter._modelToWorldMatrix.1 →
          n = w.sorter._worldToScreenMatrix.1 →
          ∃ m, w1.sorter._worldToScreenMatrix.2 = some m
            ∧ Container.get env heap c n .matrix4x4 = .ok (.matrix4x4 m))
      ∧ (n ≠ w.sorter._vertexPositions.1 →
          w1.sorter._vertexPositions = w.sorter._vertexPositions)
      ∧ (n ≠ w.sorter._modelToWorldMatrix.1 →
          w1.sorter._modelToWorldMatrix = w.sorter._modelToWorldMatrix)
      ∧ (n ≠ w.sorter._worldToScreenMatrix.1 →
          w1.sorter._worldToScreenMatrix = w.sorter._worldToScreenMatrix)
      ∧ w1 = DrawCallZSorter.requestZSort ⟨w1.sorter, w.zsortNeeded⟩ := by
  obtain ⟨s1, hrec, hc1, hc2, hc3⟩ :=
    DrawCallZSorter.record_added_ok env heap w.sorter c n hvb hmw hws
  obtain ⟨hsame, hslots, hmat, hf1, hf2, hf3⟩ :=
    DrawCallZSorter.record_added_frame env heap w.sorter s1 c n hrec
  obtain ⟨hk1, hk2, hksame, hkmat, hk6, hk7, hk8⟩ :=
    DrawCallZSorter.connectValueChanged_facts s1 c n
  refine ⟨_, DrawCallZSorter.propertyAdded_of_record env heap w c n s1 hwatched hrec, ?_⟩
  rw [DrawCallZSorter.requestZSort_sorter]
  dsimp only
  refine ⟨hsame.trans hksame, hkmat.trans hmat, ?_, ?_, ?_, ?_, ?_, ?_, ?_, ?_, rfl⟩
  · rw [hk1, hslots]
  · intro m hm
    rw [hk2 m hm, hslots]
  · intro h
    rw [hk6]; exact hc1 h
  · intro h1 h2
    rw [hk7]; exact hc2 h1 h2
  · intro h1 h2 h3
    rw [hk8]; exact hc3 h1 h2 h3
  · intro h
    rw [hk6]; exact hf1 h
  · intro h
    rw [hk7]; exact hf2 h
  · intro h
    rw [hk8]; exact hf3 h

theorem DrawCallZSorter.mem_properties_of_entry (s : DrawCallZSorter)
    (e : Sigma (fun _ : String => PropertyInfo)) (h : e ∈ s._properties.entries) :
    e.1 ∈ s._properties := by
  rw [AList.mem_keys]
  exact List.mem_keys_of_mem h

/-- The last loop of `initialize`, over any duplicate-free list of watched
properties: it succeeds when the source containers can read the spatial
properties they hold, runs the property-added handler once per property that
is present, and leaves everything else as it was. -/
theorem DrawCallZSorter.addPresentProperties_spec (env : Env) (heap : Heap)
    (target renderer : Container) :
    ∀ (L : List (Sigma (fun _ : String => PropertyInfo))) (w : World),
      L.NodupKeys →
      (∀ e ∈ L, e ∈ w.sorter._properties.entries) →
      DrawCallZSorter.DistinctNames w.sorter →
      (∀ e ∈ L, DrawCallZSorter.isPresent target renderer e = true →
        e.1 = w.sorter._vertexPositions.1 →
        ∃ v, Container.get env heap (DrawCallZSorter.sourceContainer target renderer e.2) e.1
          .vertexBufferPtr = .ok v) →
      (∀ e ∈ L, DrawCallZSorter.isPresent target renderer e = true →
        e.1 = w.sorter._modelToWorldMatrix.1 →
        ∃ v, Container.get env heap (DrawCallZSorter.sourceContainer target renderer e.2) e.1
          .matrix4x4 = .ok v) →
      (∀ e ∈ L, DrawCallZSorter.isPresent target renderer e = true →
        e.1 = w.sorter._worldToScreenMatrix.1 →
        ∃ v, Container.get env heap (DrawCallZSorter.sourceContainer target renderer e.2) e.1
          .matrix4x4 = .ok v) →
      ∃ w1, DrawCallZSorter.addPresentProperties env heap target renderer L w = (w1, .ok ())
        ∧ DrawCallZSorter.SameWatch w.sorter w1.sorter
        ∧ w1.sorter._matrixChangedSlots = w.sorter._matrixChangedSlots
        ∧ (∀ n, (∀ e ∈ L, DrawCallZSorter.isPresent target renderer e = true → e.1 ≠ n) →
            w1.sorter._propChangedSlots.lookup n = w.sorter._propChangedSlots.lookup n)
        ∧ (∀ e ∈ L, DrawCallZSorter.isPresent target renderer e = true →
            w1.sorter._propChangedSlots.lookup e.1
              = some ((w.sorter._propChangedSlots.lookup e.1).getD
                  (DrawCallZSorter.valueChangedSlot
                    (DrawCallZSorter.sourceContainer target renderer e.2) e.1)))
        ∧ ((∀ e ∈ L, DrawCallZSorter.isPresent target renderer e = true →
              e.1 ≠ w.sorter._vertexPositions.1) →
            w1.sorter._vertexPositions = w.sorter._vertexPositions)
        ∧ ((∀ e ∈ L, DrawCallZSorter.isPresent target renderer e = true →
              e.1 ≠ w.sorter._modelToWorldMatrix.1) →
            w1.sorter._modelToWorldMatrix = w.sorter._modelToWorldMatrix)
        ∧ ((∀ e ∈ L, DrawCallZSorter.isPresent target renderer e = true →
              e.1 ≠ w.sorter._worldToScreenMatrix.1) →
            w1.sorter._worldToScreenMatrix = w.sorter._worldToScreenMatrix)
        ∧ (∀ e ∈ L, DrawCallZSorter.isPresent target renderer e = true →
            e.1 = w.sorter._vertexPositions.1 →
            Container.get env heap (DrawCallZSorter.sourceContainer target renderer e.2) e.1
              .vertexBufferPtr = .ok (.vertexBufferPtr w1.sorter._vertexPositions.2))
        ∧ (∀ e ∈ L, DrawCallZSorter.isPresent target renderer e = true →
            e.1 = w.sorter._modelToWorldMatrix.1 →
            ∃ m, w1.sorter._modelToWorldMatrix.2 = some m
              ∧ Container.get env heap (DrawCallZSorter.sourceContainer target renderer e.2)
                  e.1 .matrix4x4 = .ok (.matrix4x4 m))
        ∧ (∀ e ∈ L, DrawCallZSorter.isPresent target renderer e = true →
            e.1 = w.sorter._worldToScreenMatrix.1 →
            ∃ m, w1.sorter._worldToScreenMatrix.2 = some m
              ∧ Container.get env heap (DrawCallZSorter.sourceContainer target renderer e.2)
                  e.1 .matrix4x4 = .ok (.matrix4x4 m))
        ∧ w1 = (DrawCallZSorter.requestZSort^[
              (L.filter (fun e => DrawCallZSorter.isPresent target renderer e)).length])
            ⟨w1.sorter, w.zsortNeeded⟩ := by
  intro L
  induction L with
  | nil =>
    intro w _ _ _ _ _ _
    exact ⟨w, rfl, DrawCallZSorter.SameWatch.refl _, rfl, fun _ _ => rfl,
      fun e he => absurd he (List.not_mem_nil e), fun _ => rfl, fun _ => rfl, fun _ => rfl,
      fun e he => absurd he (List.not_mem_nil e), fun e he => absurd he (List.not_mem_nil e),
      fun e he => absurd he (List.not_mem_nil e), rfl⟩
  | cons e0 rest ih =>
    intro w hnd hent hdist hvb hmw hws
    obtain ⟨hd1, hd2, hd3⟩ := hdist
    have hnd0 : e0.1 ∉ rest.keys := (List.nodupKeys_cons.mp hnd).1
    have hndr : rest.NodupKeys := (List.nodupKeys_cons.mp hnd).2
    have hne : ∀ e ∈ rest, e.1 ≠ e0.1 := fun e he h =>
      hnd0 (h ▸ List.mem_keys_of_mem he)
    by_cases hp : DrawCallZSorter.isPresent target renderer e0 = true
    · have hwatched := DrawCallZSorter.mem_properties_of_entry w.sorter e0
        (hent e0 (List.mem_cons_self _ _))
      obtain ⟨wm, hstep, hsame, hmat, hl1, hl2, c1, c2, c3, f1, f2, f3, hz⟩ :=
        DrawCallZSorter.propertyAdded_step env heap w
          (DrawCallZSorter.sourceContainer target renderer e0.2) e0.1 hwatched
          (hvb e0 (List.mem_cons_self _ _) hp) (hmw e0 (List.mem_cons_self _ _) hp)
          (hws e0 (List.mem_cons_self _ _) hp)
      have hn1 := hsame.positionsName
      have hn2 := hsame.modelToWorldName
      have hn3 := hsame.worldToScreenName
      obtain ⟨w1, hloop, rsame, rmat, rl1, rl2, rf1, rf2, rf3, rc1, rc2, rc3, rz⟩ :=
        ih wm hndr
          (fun e he => hsame.properties ▸ hent e (List.mem_cons_of_mem _ he))
          ⟨by rw [hn1, hn2]; exact hd1, by rw [hn1, hn3]; exact hd2,
            by rw [hn2, hn3]; exact hd3⟩
          (fun e he hpe h => hvb e (List.mem_cons_of_mem _ he) hpe (h.trans hn1))
          (fun e he hpe h => hmw e (List.mem_cons_of_mem _ he) hpe (h.trans hn2))
          (fun e he hpe h => hws e (List.mem_cons_of_mem _ he) hpe (h.trans hn3))
      have hrun : DrawCallZSorter.addPresentProperties env heap target renderer (e0 :: rest) w
          = (w1, .ok ()) := by
        have hp2 : (DrawCallZSorter.sourceContainer target renderer e0.2).hasProperty e0.1
            = true := hp
        simp only [DrawCallZSorter.addPresentProperties, hp2, if_true, hstep]
        exact hloop
      refine ⟨w1, hrun, hsame.trans rsame, rmat.trans hmat, ?_, ?_, ?_, ?_, ?_, ?_, ?_, ?_, ?_⟩
      · intro n hn
        rw [rl1 n (fun e he hpe => hn e (List.mem_cons_of_mem _ he) hpe)]
        exact hl2 n (fun h => hn e0 (List.mem_cons_self _ _) hp h.symm)
      · intro e he hpe
        rcases List.mem_cons.mp he with rfl | her
        · rw [rl1 e.1 (fun e1 he1 _ => hne e1 he1)]
          exact hl1
        · rw [rl2 e her hpe, hl2 e.1 (hne e her)]
      · intro h
        rw [rf1 (fun e he hpe => hn1 ▸ h e (List.mem_cons_of_mem _ he) hpe)]
        exact f1 (h e0 (List.mem_cons_self _ _) hp)
      · intro h
        rw [rf2 (fun e he hpe => hn2 ▸ h e (List.mem_cons_of_mem _ he) hpe)]
        exact f2 (h e0 (List.mem_cons_self _ _) hp)
      · intro h
        rw [rf3 (fun e he hpe => hn3 ▸ h e (List.mem_cons_of_mem _ he) hpe)]
        exact f3 (h e0 (List.mem_cons_self _ _) hp)
      · intro e he hpe h
        rcases List.mem_cons.mp he with rfl | her
        · rw [rf1 (fun e1 he1 _ => by rw [hn1, ← h]; exact hne e1 he1)]
          exact c1 h
        · exact rc1 e her hpe (h.trans hn1.symm)
      · intro e he hpe h
        rcases List.mem_cons.mp he with rfl | her
        · rw [rf2 (fun e1 he1 _ => by rw [hn2, ← h]; exact hne e1 he1)]
          exact c2 (fun h1 => hd1 (h1.symm.trans h)) h
        · exact rc2 e her hpe (h.trans hn2.symm)
      · intro e he hpe h
        rcases List.mem_cons.mp he with rfl | her
        · rw [rf3 (fun e1 he1 _ => by rw [hn3, ← h]; exact hne e1 he1)]
          exact c3 (fun h1 => hd2 (h1.symm.trans h)) (fun h1 => hd3 (h1.symm.trans h)) h
        · exact rc3 e her hpe (h.trans hn3.symm)
      · rw [List.filter_cons_of_pos (by simpa using hp), List.length_cons,
          Function.iterate_succ_apply, DrawCallZSorter.requestZSort_mk]
        have hlog : wm.zsortNeeded = w.zsortNeeded
            ++ (if w1.sorter._drawcall.zSorted then [w1.sorter._drawcall.id] else []) := by
          rw [hz, DrawCallZSorter.requestZSort_log]
          show w.zsortNeeded ++ (if wm.sorter._drawcall.zSorted = true
            then [wm.sorter._drawcall.id] else []) = _
          rw [rsame.drawcall]
        rw [← hlog]
        exact rz
    · obtain ⟨w1, hloop, rsame, rmat, rl1, rl2, rf1, rf2, rf3, rc1, rc2, rc3, rz⟩ :=
        ih w hndr (fun e he => hent e (List.mem_cons_of_mem _ he)) ⟨hd1, hd2, hd3⟩
          (fun e he hpe h => hvb e (List.mem_cons_of_mem _ he) hpe h)
          (fun e he hpe h => hmw e (List.mem_cons_of_mem _ he) hpe h)
          (fun e he hpe h => hws e (List.mem_cons_of_mem _ he) hpe h)
      have hrun : DrawCallZSorter.addPresentProperties env heap target renderer (e0 :: rest) w
          = (w1, .ok ()) := by
        have hp2 : ¬ (DrawCallZSorter.sourceContainer target renderer e0.2).hasProperty e0.1
            = true := hp
        simp only [DrawCallZSorter.addPresentProperties, hp2, if_false]
        exact hloop
      refine ⟨w1, hrun, rsame, rmat, ?_, ?_, ?_, ?_, ?_, ?_, ?_, ?_, ?_⟩
      · intro n hn
        exact rl1 n (fun e he hpe => hn e (List.mem_cons_of_mem _ he) hpe)
      · intro e he hpe
        rcases List.mem_cons.mp he with rfl | her
        · exact absurd hpe hp
        · exact rl2 e her hpe
      · intro h
        exact rf1 (fun e he hpe => h e (List.mem_cons_of_mem _ he) hpe)
      · intro h
        exact rf2 (fun e he hpe => h e (List.mem_cons_of_mem _ he) hpe)
      · intro h
        exact rf3 (fun e he hpe => h e (List.mem_cons_of_mem _ he) hpe)
      · intro e he hpe h
        rcases List.mem_cons.mp he with rfl | her
        · exact absurd hpe hp
        · exact rc1 e her hpe h
      · intro e he hpe h
        rcases List.mem_cons.mp he with rfl | her
        · exact absurd hpe hp
        · exact rc2 e her hpe h
      · intro e he hpe h
        rcases List.mem_cons.mp he with rfl | her
        · exact absurd hpe hp
        · exact rc3 e her hpe h
      · rw [List.filter_cons_of_neg (by simpa using hp)]
        exact rz

/-- The first loop of `initialize` writes `_properties` only. -/
theorem DrawCallZSorter.formatRawProperties_frame :
    ∀ (L : List (Sigma (fun _ : String => PropertyInfo))) (s : DrawCallZSorter),
      (DrawCallZSorter.formatRawProperties s L)._drawcall = s._drawcall
      ∧ (DrawCallZSorter.formatRawProperties s L)._targetPropAddedSlot = s._targetPropAddedSlot
      ∧ (DrawCallZSorter.formatRawProperties s L)._targetPropRemovedSlot
          = s._targetPropRemovedSlot
      ∧ (DrawCallZSorter.formatRawProperties s L)._rendererPropAddedSlot
          = s._rendererPropAddedSlot
      ∧ (DrawCallZSorter.formatRawProperties s L)._rendererPropRemovedSlot
          = s._rendererPropRemovedSlot
      ∧ (DrawCallZSorter.formatRawProperties s L)._propChangedSlots = s._propChangedSlots
      ∧ (DrawCallZSorter.formatRawProperties s L)._matrixChangedSlots = s._matrixChangedSlots
      ∧ (DrawCallZSorter.formatRawProperties s L)._vertexPositions = s._vertexPositions
      ∧ (DrawCallZSorter.formatRawProperties s L)._modelToWorldMatrix = s._modelToWorldMatrix
      ∧ (DrawCallZSorter.formatRawProperties s L)._worldToScreenMatrix
          = s._worldToScreenMatrix := by
  intro L
  induction L with
  | nil => intro s; exact ⟨rfl, rfl, rfl, rfl, rfl, rfl, rfl, rfl, rfl, rfl⟩
  | cons e rest ih =>
    intro s
    simp only [DrawCallZSorter.formatRawProperties]
    exact ih _

/-- With formatted names that are new and pairwise distinct, the first loop of
`initialize` adds one entry per raw property, the formatted name carrying the
info of the raw one. -/
theorem DrawCallZSorter.formatRawProperties_entries :
    ∀ (L : List (Sigma (fun _ : String => PropertyInfo))) (s : DrawCallZSorter),
      (L.map (fun e => s._drawcall.formatPropertyName e.1)).Nodup →
      (∀ e ∈ L, s._drawcall.formatPropertyName e.1 ∉ s._properties) →
      (DrawCallZSorter.formatRawProperties s L)._properties.entries
        = (L.map (fun e => (⟨s._drawcall.formatPropertyName e.1, e.2⟩ :
              Sigma (fun _ : String => PropertyInfo)))).reverse
          ++ s._properties.entries := by
  intro L
  induction L with
  | nil => intro s _ _; simp [DrawCallZSorter.formatRawProperties]
  | cons e rest ih =>
    intro s hnd hnew
    rw [List.map_cons, List.nodup_cons] at hnd
    have hfresh : s._drawcall.formatPropertyName e.1 ∉ s._properties :=
      hnew e (List.mem_cons_self _ _)
    have hrest := ih
      { s with _properties :=
          s._properties.insert (s._drawcall.formatPropertyName e.1) e.2 } hnd.2
      (by
        intro e1 he1
        simp only [AList.mem_insert, not_or]
        refine ⟨?_, hnew e1 (List.mem_cons_of_mem _ he1)⟩
        intro heq
        exact hnd.1 (List.mem_map.mpr ⟨e1, he1, heq⟩))
    simp only [DrawCallZSorter.formatRawProperties]
    rw [hrest]
    simp only [AList.insert_entries_of_neg hfresh, List.map_cons, List.reverse_cons,
      List.append_assoc, List.singleton_append]

theorem DrawCallZSorter.rawProperties_keys :
    DrawCallZSorter._rawProperties.keys
      = ["camera.worldToScreenMatrix", "transform.modelToWorldMatrix",
         "geometry[${geometryId}].position", "material[${materialId}].zSort",
         "material[${materialId}].priority"] := by
  decide

/-- What `initialize` has set up before its last loop. -/
theorem DrawCallZSorter.initializeWatch_facts (order : Traversal String PropertyInfo)
    (s : DrawCallZSorter) (target renderer : Container)
    (hinj : (DrawCallZSorter._rawProperties.keys.map s._drawcall.formatPropertyName).Nodup) :
    (DrawCallZSorter.initializeWatch order s target renderer)._drawcall = s._drawcall
    ∧ (∀ e, e ∈ (DrawCallZSorter.initializeWatch order s target renderer)._properties.entries
        ↔ ∃ r ∈ DrawCallZSorter._rawProperties.entries,
            e = ⟨s._drawcall.formatPropertyName r.1, r.2⟩)
    ∧ (DrawCallZSorter.initializeWatch order s target renderer)._properties.entries.Perm
        (DrawCallZSorter._rawProperties.entries.map
          (fun r => (⟨s._drawcall.formatPropertyName r.1, r.2⟩ :
            Sigma (fun _ : String => PropertyInfo))))
    ∧ (DrawCallZSorter.initializeWatch order s target renderer)._propChangedSlots = ∅
    ∧ (DrawCallZSorter.initializeWatch order s target renderer)._matrixChangedSlots = ∅
    ∧ (DrawCallZSorter.initializeWatch order s target renderer)._vertexPositions
        = (s._drawcall.formatPropertyName "geometry[${geometryId}].position",
            s._vertexPositions.2)
    ∧ (DrawCallZSorter.initializeWatch order s target renderer)._modelToWorldMatrix
        = (s._drawcall.formatPropertyName "transform.modelToWorldMatrix",
            s._modelToWorldMatrix.2)
    ∧ (DrawCallZSorter.initializeWatch order s target renderer)._worldToScreenMatrix
        = (s._drawcall.formatPropertyName "camera.worldToScreenMatrix",
            s._worldToScreenMatrix.2) := by
  have hperm := order.perm DrawCallZSorter._rawProperties
  obtain ⟨f1, -, -, -, -, -, f7, f8, f9, f10⟩ :=
    DrawCallZSorter.formatRawProperties_frame (order.order DrawCallZSorter._rawProperties)
      (DrawCallZSorter.clear s)
  have hnd : ((order.order DrawCallZSorter._rawProperties).map
      (fun e => (DrawCallZSorter.clear s)._drawcall.formatPropertyName e.1)).Nodup := by
    have hp2 := hperm.map (fun e => s._drawcall.formatPropertyName e.1)
    refine hp2.nodup_iff.mpr ?_
    have hk : DrawCallZSorter._rawProperties.entries.map
        (fun e => s._drawcall.formatPropertyName e.1)
        = DrawCallZSorter._rawProperties.keys.map s._drawcall.formatPropertyName := by
      simp [AList.keys, List.keys, List.map_map, Function.comp_def]
    rw [hk]; exact hinj
  have hent := DrawCallZSorter.formatRawProperties_entries
    (order.order DrawCallZSorter._rawProperties) (DrawCallZSorter.clear s) hnd
    (fun e _ => AList.not_mem_empty _)
  have hent2 : (DrawCallZSorter.initializeWatch order s target renderer)._properties.entries
      = ((order.order DrawCallZSorter._rawProperties).map
          (fun e => (⟨s._drawcall.formatPropertyName e.1, e.2⟩ :
            Sigma (fun _ : String => PropertyInfo)))).reverse := by
    show (DrawCallZSorter.formatRawProperties (DrawCallZSorter.clear s)
      (order.order DrawCallZSorter._rawProperties))._properties.entries = _
    rw [hent]
    simp [DrawCallZSorter.clear]
  have hpermP : (DrawCallZSorter.initializeWatch order s target renderer)._properties.entries.Perm
      (DrawCallZSorter._rawProperties.entries.map
        (fun r => (⟨s._drawcall.formatPropertyName r.1, r.2⟩ :
          Sigma (fun _ : String => PropertyInfo)))) := by
    rw [hent2]
    exact (List.reverse_perm _).trans (hperm.map _)
  refine ⟨f1, ?_, hpermP, rfl, ?_, ?_, ?_, ?_⟩
  · intro e
    rw [hpermP.mem_iff, List.mem_map]
    constructor
    · rintro ⟨r, hr, rfl⟩; exact ⟨r, hr, rfl⟩
    · rintro ⟨r, hr, rfl⟩; exact ⟨r, hr, rfl⟩
  · show (DrawCallZSorter.formatRawProperties (DrawCallZSorter.clear s)
      (order.order DrawCallZSorter._rawProperties))._matrixChangedSlots = ∅
    rw [f7]; rfl
  · show ((DrawCallZSorter.formatRawProperties (DrawCallZSorter.clear s)
      (order.order DrawCallZSorter._rawProperties))._drawcall.formatPropertyName _,
      (DrawCallZSorter.formatRawProperties (DrawCallZSorter.clear s)
      (order.order DrawCallZSorter._rawProperties))._vertexPositions.2) = _
    rw [f1, f8]; rfl
  · show ((DrawCallZSorter.formatRawProperties (DrawCallZSorter.clear s)
      (order.order DrawCallZSorter._rawProperties))._drawcall.formatPropertyName _,
      (DrawCallZSorter.formatRawProperties (DrawCallZSorter.clear s)
      (order.order DrawCallZSorter._rawProperties))._modelToWorldMatrix.2) = _
    rw [f1, f9]; rfl
  · show ((DrawCallZSorter.formatRawProperties (DrawCallZSorter.clear s)
      (order.order DrawCallZSorter._rawProperties))._drawcall.formatPropertyName _,
      (DrawCallZSorter.formatRawProperties (DrawCallZSorter.clear s)
      (order.order DrawCallZSorter._rawProperties))._worldToScreenMatrix.2) = _
    rw [f1, f10]; rfl

theorem DrawCallZSorter.rawProperties_lookup_of_entry
    (r : Sigma (fun _ : String => PropertyInfo))
    (hr : r ∈ DrawCallZSorter._rawProperties.entries) :
    DrawCallZSorter._rawProperties.lookup r.1 = some r.2 := by
  have h : r.2 ∈ DrawCallZSorter._rawProperties.lookup r.1 := AList.mem_lookup_iff.mpr hr
  exact h

theorem DrawCallZSorter.rawProperties_entry_of_lookup (t : String) (info : PropertyInfo)
    (h : DrawCallZSorter._rawProperties.lookup t = some info) :
    (⟨t, info⟩ : Sigma (fun _ : String => PropertyInfo))
      ∈ DrawCallZSorter._rawProperties.entries :=
  AList.mem_lookup_iff.mp h

/-- A watched entry whose name is the formatted name of a raw property carries
the info of that raw property, when formatting keeps the raw names apart. -/
theorem DrawCallZSorter.initializeWatch_info (order : Traversal String PropertyInfo)
    (s : DrawCallZSorter) (target renderer : Container)
    (hinj : (DrawCallZSorter._rawProperties.keys.map s._drawcall.formatPropertyName).Nodup)
    (e : Sigma (fun _ : String => PropertyInfo))
    (he : e ∈ (DrawCallZSorter.initializeWatch order s target renderer)._properties.entries)
    (t : String) (ht : t ∈ DrawCallZSorter._rawProperties.keys)
    (hname : e.1 = s._drawcall.formatPropertyName t) :
    DrawCallZSorter._rawProperties.lookup t = some e.2 := by
  obtain ⟨-, hmem, -⟩ := DrawCallZSorter.initializeWatch_facts order s target renderer hinj
  obtain ⟨r, hr, rfl⟩ := (hmem e).mp he
  have hrk : r.1 ∈ DrawCallZSorter._rawProperties.keys := List.mem_keys_of_mem hr
  have heq : r.1 = t := List.inj_on_of_nodup_map hinj hrk ht hname
  rw [← heq]
  exact DrawCallZSorter.rawProperties_lookup_of_entry r hr

theorem DrawCallZSorter.sourceContainer_target (target renderer : Container) (b : Bool) :
    DrawCallZSorter.sourceContainer target renderer ⟨.target, b⟩ = target := by
  simp [DrawCallZSorter.sourceContainer]

theorem DrawCallZSorter.sourceContainer_renderer (target renderer : Container) (b : Bool) :
    DrawCallZSorter.sourceContainer target renderer ⟨.renderer, b⟩ = renderer := by
  simp [DrawCallZSorter.sourceContainer]

/-- Formatting that keeps the raw names apart keeps the three spatial names
apart. -/
theorem DrawCallZSorter.initializeWatch_distinct (order : Traversal String PropertyInfo)
    (s : DrawCallZSorter) (target renderer : Container)
    (hinj : (DrawCallZSorter._rawProperties.keys.map s._drawcall.formatPropertyName).Nodup) :
    DrawCallZSorter.DistinctNames (DrawCallZSorter.initializeWatch order s target renderer) := by
  obtain ⟨-, -, -, -, -, n1, n2, n3⟩ :=
    DrawCallZSorter.initializeWatch_facts order s target renderer hinj
  have hinj2 := List.inj_on_of_nodup_map hinj
  rw [DrawCallZSorter.rawProperties_keys] at hinj2
  unfold DrawCallZSorter.DistinctNames
  rw [n1, n2, n3]
  refine ⟨?_, ?_, ?_⟩
  · intro h
    exact absurd (hinj2 (by simp) (by simp) h) (by decide)
  · intro h
    exact absurd (hinj2 (by simp) (by simp) h) (by decide)
  · intro h
    exact absurd (hinj2 (by simp) (by simp) h) (by decide)

/-- The whole of `initialize`, for a formatter that keeps the raw names apart
and containers that can read the spatial properties they hold. -/
theorem DrawCallZSorter.initialize_spec (env : Env) (heap : Heap)
    (order : Traversal String PropertyInfo) (w : World) (target renderer root : Container)
    (hinj : (DrawCallZSorter._rawProperties.keys.map
      w.sorter._drawcall.formatPropertyName).Nodup)
    (hvb : target.hasProperty
        (w.sorter._drawcall.formatPropertyName "geometry[${geometryId}].position") = true →
      ∃ v, Container.get env heap target
        (w.sorter._drawcall.formatPropertyName "geometry[${geometryId}].position")
        .vertexBufferPtr = .ok v)
    (hmw : target.hasProperty
        (w.sorter._drawcall.formatPropertyName "transform.modelToWorldMatrix") = true →
      ∃ v, Container.get env heap target
        (w.sorter._drawcall.formatPropertyName "transform.modelToWorldMatrix")
        .matrix4x4 = .ok v)
    (hws : renderer.hasProperty
        (w.sorter._drawcall.formatPropertyName "camera.worldToScreenMatrix") = true →
      ∃ v, Container.get env heap renderer
        (w.sorter._drawcall.formatPropertyName "camera.worldToScreenMatrix")
        .matrix4x4 = .ok v) :
    ∃ w1, DrawCallZSorter.initialize env heap order w target renderer root = (w1, .ok ())
      ∧ DrawCallZSorter.SameWatch
          (DrawCallZSorter.initializeWatch order w.sorter target renderer) w1.sorter
      ∧ w1.sorter._matrixChangedSlots = ∅
      ∧ (∀ r ∈ DrawCallZSorter._rawProperties.entries,
          (DrawCallZSorter.sourceContainer target renderer r.2).hasProperty
            (w.sorter._drawcall.formatPropertyName r.1) = true →
          w1.sorter._propChangedSlots.lookup (w.sorter._drawcall.formatPropertyName r.1)
            = some (DrawCallZSorter.valueChangedSlot
                (DrawCallZSorter.sourceContainer target renderer r.2)
                (w.sorter._drawcall.formatPropertyName r.1)))
      ∧ (∀ n, (∀ r ∈ DrawCallZSorter._rawProperties.entries,
            (DrawCallZSorter.sourceContainer target renderer r.2).hasProperty
              (w.sorter._drawcall.formatPropertyName r.1) = true →
            w.sorter._drawcall.formatPropertyName r.1 ≠ n) →
          w1.sorter._propChangedSlots.lookup n = none)
      ∧ (target.hasProperty
            (w.sorter._drawcall.formatPropertyName "geometry[${geometryId}].position") = true →
          Container.get env heap target
            (w.sorter._drawcall.formatPropertyName "geometry[${geometryId}].position")
            .vertexBufferPtr = .ok (.vertexBufferPtr w1.sorter._vertexPositions.2))
      ∧ (target.hasProperty
            (w.sorter._drawcall.formatPropertyName "transform.modelToWorldMatrix") = true →
          ∃ m, w1.sorter._modelToWorldMatrix.2 = some m
            ∧ Container.get env heap target
                (w.sorter._drawcall.formatPropertyName "transform.modelToWorldMatrix")
                .matrix4x4 = .ok (.matrix4x4 m))
      ∧ (renderer.hasProperty
            (w.sorter._drawcall.formatPropertyName "camera.worldToScreenMatrix") = true →
          ∃ m, w1.sorter._worldToScreenMatrix.2 = some m
            ∧ Container.get env heap renderer
                (w.sorter._drawcall.formatPropertyName "camera.worldToScreenMatrix")
                .matrix4x4 = .ok (.matrix4x4 m))
      ∧ (target.hasProperty
            (w.sorter._drawcall.formatPropertyName "geometry[${geometryId}].position") = false →
          w1.sorter._vertexPositions.2 = w.sorter._vertexPositions.2)
      ∧ (target.hasProperty
            (w.sorter._drawcall.formatPropertyName "transform.modelToWorldMatrix") = false →
          w1.sorter._modelToWorldMatrix.2 = w.sorter._modelToWorldMatrix.2)
      ∧ (renderer.hasProperty
            (w.sorter._drawcall.formatPropertyName "camera.worldToScreenMatrix") = false →
          w1.sorter._worldToScreenMatrix.2 = w.sorter._worldToScreenMatrix.2)
      ∧ w1 = (DrawCallZSorter.requestZSort^[
            (DrawCallZSorter._rawProperties.entries.filter
              (fun r => (DrawCallZSorter.sourceContainer target renderer r.2).hasProperty
                (w.sorter._drawcall.formatPropertyName r.1))).length])
          ⟨w1.sorter, w.zsortNeeded⟩ := by
  obtain ⟨hdc, hmem, hpermP, hslots0, hmat0, n1, n2, n3⟩ :=
    DrawCallZSorter.initializeWatch_facts order w.sorter target renderer hinj
  have hdist := DrawCallZSorter.initializeWatch_distinct order w.sorter target renderer hinj
  have hinfo := DrawCallZSorter.initializeWatch_info order w.sorter target renderer hinj
  have hpermL := order.perm
    (DrawCallZSorter.initializeWatch order w.sorter target renderer)._properties
  have hkg : "geometry[${geometryId}].position" ∈ DrawCallZSorter._rawProperties.keys := by
    decide
  have hkm : "transform.modelToWorldMatrix" ∈ DrawCallZSorter._rawProperties.keys := by
    decide
  have hkw : "camera.worldToScreenMatrix" ∈ DrawCallZSorter._rawProperties.keys := by
    decide
  have hlg : DrawCallZSorter._rawProperties.lookup "geometry[${geometryId}].position"
      = some ⟨.target, false⟩ := by decide
  have hlm : DrawCallZSorter._rawProperties.lookup "transform.modelToWorldMatrix"
      = some ⟨.target, true⟩ := by decide
  have hlw : DrawCallZSorter._rawProperties.lookup "camera.worldToScreenMatrix"
      = some ⟨.renderer, true⟩ := by decide
  -- every watched entry named like a spatial property has that property's info
  have eg : ∀ e ∈ order.order
      (DrawCallZSorter.initializeWatch order w.sorter target renderer)._properties,
      e.1 = w.sorter._drawcall.formatPropertyName "geometry[${geometryId}].position" →
      e = ⟨w.sorter._drawcall.formatPropertyName "geometry[${geometryId}].position",
        ⟨.target, false⟩⟩ := by
    intro e he h
    have h2 := hinfo e (hpermL.mem_iff.mp he) _ hkg h
    rw [hlg] at h2
    cases e; cases h; cases h2; rfl
  have em : ∀ e ∈ order.order
      (DrawCallZSorter.initializeWatch order w.sorter target renderer)._properties,
      e.1 = w.sorter._drawcall.formatPropertyName "transform.modelToWorldMatrix" →
      e = ⟨w.sorter._drawcall.formatPropertyName "transform.modelToWorldMatrix",
        ⟨.target, true⟩⟩ := by
    intro e he h
    have h2 := hinfo e (hpermL.mem_iff.mp he) _ hkm h
    rw [hlm] at h2
    cases e; cases h; cases h2; rfl
  have ew : ∀ e ∈ order.order
      (DrawCallZSorter.initializeWatch order w.sorter target renderer)._properties,
      e.1 = w.sorter._drawcall.formatPropertyName "camera.worldToScreenMatrix" →
      e = ⟨w.sorter._drawcall.formatPropertyName "camera.worldToScreenMatrix",
        ⟨.renderer, true⟩⟩ := by
    intro e he h
    have h2 := hinfo e (hpermL.mem_iff.mp he) _ hkw h
    rw [hlw] at h2
    cases e; cases h; cases h2; rfl
  -- the entries of the raw spatial properties are traversed
  have tr : ∀ r ∈ DrawCallZSorter._rawProperties.entries,
      (⟨w.sorter._drawcall.formatPropertyName r.1, r.2⟩ :
        Sigma (fun _ : String => PropertyInfo)) ∈ order.order
          (DrawCallZSorter.initializeWatch order w.sorter target renderer)._properties :=
    fun r hr => hpermL.mem_iff.mpr ((hmem _).mpr ⟨r, hr, rfl⟩)
  obtain ⟨w1, hloop, rsame, rmat, rl1, rl2, rf1, rf2, rf3, rc1, rc2, rc3, rz⟩ :=
    DrawCallZSorter.addPresentProperties_spec env heap target renderer
      (order.order (DrawCallZSorter.initializeWatch order w.sorter target renderer)._properties)
      ⟨DrawCallZSorter.initializeWatch order w.sorter target renderer, w.zsortNeeded⟩
      ((List.perm_nodupKeys hpermL).mpr (AList.nodupKeys _))
      (fun e he => hpermL.mem_iff.mp he)
      hdist
      (by
        intro e he hp h
        have h1 : e.1 = w.sorter._drawcall.formatPropertyName
            "geometry[${geometryId}].position" := h.trans (congrArg Prod.fst n1)
        have h2 := eg e he h1
        subst h2
        rw [DrawCallZSorter.sourceContainer_target]
        exact hvb (by simpa [DrawCallZSorter.isPresent,
          DrawCallZSorter.sourceContainer_target] using hp))
      (by
        intro e he hp h
        have h1 : e.1 = w.sorter._drawcall.formatPropertyName
            "transform.modelToWorldMatrix" := h.trans (congrArg Prod.fst n2)
        have h2 := em e he h1
        subst h2
        rw [DrawCallZSorter.sourceContainer_target]
        exact hmw (by simpa [DrawCallZSorter.isPresent,
          DrawCallZSorter.sourceContainer_target] using hp))
      (by
        intro e he hp h
        have h1 : e.1 = w.sorter._drawcall.formatPropertyName
            "camera.worldToScreenMatrix" := h.trans (congrArg Prod.fst n3)
        have h2 := ew e he h1
        subst h2
        rw [DrawCallZSorter.sourceContainer_renderer]
        exact hws (by simpa [DrawCallZSorter.isPresent,
          DrawCallZSorter.sourceContainer_renderer] using hp))
  refine ⟨w1, hloop, rsame, rmat.trans hmat0, ?_, ?_, ?_, ?_, ?_, ?_, ?_, ?_, ?_⟩
  · intro r hr hp
    have := rl2 _ (tr r hr) hp
    rw [this]
    show some ((AList.lookup _ (DrawCallZSorter.initializeWatch order w.sorter target
      renderer)._propChangedSlots).getD _) = _
    rw [hslots0]; rfl
  · intro n hn
    have := rl1 n (by
      intro e he hp
      obtain ⟨r, hr, rfl⟩ := (hmem e).mp (hpermL.mem_iff.mp he)
      exact hn r hr hp)
    rw [this]
    show AList.lookup n (DrawCallZSorter.initializeWatch order w.sorter target
      renderer)._propChangedSlots = none
    rw [hslots0]; rfl
  · intro hp
    have h := rc1 _ (tr ⟨_, _⟩ (DrawCallZSorter.rawProperties_entry_of_lookup _ _ hlg))
      (by simpa [DrawCallZSorter.isPresent, DrawCallZSorter.sourceContainer_target] using hp)
      (congrArg Prod.fst n1).symm
    rw [DrawCallZSorter.sourceContainer_target] at h
    exact h
  · intro hp
    have h := rc2 _ (tr ⟨_, _⟩ (DrawCallZSorter.rawProperties_entry_of_lookup _ _ hlm))
      (by simpa [DrawCallZSorter.isPresent, DrawCallZSorter.sourceContainer_target] using hp)
      (congrArg Prod.fst n2).symm
    rw [DrawCallZSorter.sourceContainer_target] at h
    exact h
  · intro hp
    have h := rc3 _ (tr ⟨_, _⟩ (DrawCallZSorter.rawProperties_entry_of_lookup _ _ hlw))
      (by simpa [DrawCallZSorter.isPresent, DrawCallZSorter.sourceContainer_renderer] using hp)
      (congrArg Prod.fst n3).symm
    rw [DrawCallZSorter.sourceContainer_renderer] at h
    exact h
  · intro hp
    have h := rf1 (by
      intro e he hpe heq
      have h1 : e.1 = w.sorter._drawcall.formatPropertyName
          "geometry[${geometryId}].position" := heq.trans (congrArg Prod.fst n1)
      have h2 := eg e he h1
      subst h2
      simp [DrawCallZSorter.isPresent, DrawCallZSorter.sourceContainer_target, hp] at hpe)
    rw [h]
    show (DrawCallZSorter.initializeWatch order w.sorter target renderer)._vertexPositions.2 = _
    rw [n1]
  · intro hp
    have h := rf2 (by
      intro e he hpe heq
      have h1 : e.1 = w.sorter._drawcall.formatPropertyName
          "transform.modelToWorldMatrix" := heq.trans (congrArg Prod.fst n2)
      have h2 := em e he h1
      subst h2
      simp [DrawCallZSorter.isPresent, DrawCallZSorter.sourceContainer_target, hp] at hpe)
    rw [h]
    show (DrawCallZSorter.initializeWatch order w.sorter target renderer)._modelToWorldMatrix.2
      = _
    rw [n2]
  · intro hp
    have h := rf3 (by
      intro e he hpe heq
      have h1 : e.1 = w.sorter._drawcall.formatPropertyName
          "camera.worldToScreenMatrix" := heq.trans (congrArg Prod.fst n3)
      have h2 := ew e he h1
      subst h2
      simp [DrawCallZSorter.isPresent, DrawCallZSorter.sourceContainer_renderer, hp] at hpe)
    rw [h]
    show (DrawCallZSorter.initializeWatch order w.sorter target renderer)._worldToScreenMatrix.2
      = _
    rw [n3]
  · have hcount : (List.filter (fun e => DrawCallZSorter.isPresent target renderer e)
        (order.order
          (DrawCallZSorter.initializeWatch order w.sorter target renderer)._properties)).length
        = (DrawCallZSorter._rawProperties.entries.filter
            (fun r => (DrawCallZSorter.sourceContainer target renderer r.2).hasProperty
              (w.sorter._drawcall.formatPropertyName r.1))).length := by
      rw [((hpermL.trans hpermP).filter _).length_eq, List.filter_map, List.length_map]
      rfl
    rw [← hcount]
    exact rz

/-- C8 as stated fails: the model-to-world matrix is a watched name and is
already present in the renderer and in the root container, but not in the
target container, which is the one `initialize` looks it up in. After
`initialize` the name has no value-changed slot, no matrix is cached and no
re-sort was requested. -/
theorem DrawCallZSorter.initialize_off_source_counterexample :
    Example.rendererWithTransform.hasProperty "transform.modelToWorldMatrix" = true
    ∧ Example.rootWithTransform.hasProperty "transform.modelToWorldMatrix" = true
    ∧ Example.emptyTarget.hasProperty "transform.modelToWorldMatrix" = false
    ∧ Example.fresh.sorter._drawcall.formatPropertyName "transform.modelToWorldMatrix"
        = "transform.modelToWorldMatrix"
    ∧ Example.initializedOffSource.2 = .ok ()
    ∧ "transform.modelToWorldMatrix" ∈ Example.initializedOffSource.1.sorter._properties
    ∧ Example.initializedOffSource.1.sorter._propChangedSlots.lookup
        "transform.modelToWorldMatrix" = none
    ∧ Example.initializedOffSource.1.sorter._modelToWorldMatrix.2 = none
    ∧ Example.initializedOffSource.1.zsortNeeded = [] := by
  refine ⟨by decide, by decide, by decide, by decide, rfl, by decide, by decide, rfl, rfl⟩

/-- C8, amended: `initialize(target, renderer, root)`, for a draw call whose
formatter keeps the five raw names apart and containers that can read the
spatial properties they hold with the spatial type, succeeds and afterwards:
the watched names are exactly the formatted names of the five templates; every
template whose formatted name is already present in the container of its
binding source (the renderer container for the world-to-screen matrix, the
target container for the others) has a value-changed slot on that container;
the position buffer, the model-to-world matrix and the world-to-screen matrix
that are present there are cached with the container's current value; and
`requestZSort()` has been run once per such template on the unchanged signal
record. -/
theorem DrawCallZSorter.initialize_present_properties (env : Env) (heap : Heap)
    (order : Traversal String PropertyInfo) (w : World) (target renderer root : Container)
    (hinj : (DrawCallZSorter._rawProperties.keys.map
      w.sorter._drawcall.formatPropertyName).Nodup)
    (hvb : target.hasProperty
        (w.sorter._drawcall.formatPropertyName "geometry[${geometryId}].position") = true →
      ∃ v, Container.get env heap target
        (w.sorter._drawcall.formatPropertyName "geometry[${geometryId}].position")
        .vertexBufferPtr = .ok v)
    (hmw : target.hasProperty
        (w.sorter._drawcall.formatPropertyName "transform.modelToWorldMatrix") = true →
      ∃ v, Container.get env heap target
        (w.sorter._drawcall.formatPropertyName "transform.modelToWorldMatrix")
        .matrix4x4 = .ok v)
    (hws : renderer.hasProperty
        (w.sorter._drawcall.formatPropertyName "camera.worldToScreenMatrix") = true →
      ∃ v, Container.get env heap renderer
        (w.sorter._drawcall.formatPropertyName "camera.worldToScreenMatrix")
        .matrix4x4 = .ok v) :
    ∃ w1, DrawCallZSorter.initialize env heap order w target renderer root = (w1, .ok ())
      ∧ (∀ n, n ∈ w1.sorter._properties ↔
          ∃ t ∈ ["camera.worldToScreenMatrix", "transform.modelToWorldMatrix",
                 "geometry[${geometryId}].position", "material[${materialId}].zSort",
                 "material[${materialId}].priority"],
            n = w.sorter._drawcall.formatPropertyName t)
      ∧ (∀ t info, DrawCallZSorter._rawProperties.lookup t = some info →
          (DrawCallZSorter.sourceContainer target renderer info).hasProperty
            (w.sorter._drawcall.formatPropertyName t) = true →
          w1.sorter._propChangedSlots.lookup (w.sorter._drawcall.formatPropertyName t)
            = some (DrawCallZSorter.valueChangedSlot
                (DrawCallZSorter.sourceContainer target renderer info)
                (w.sorter._drawcall.formatPropertyName t)))
      ∧ (target.hasProperty
            (w.sorter._drawcall.formatPropertyName "geometry[${geometryId}].position") = true →
          Container.get env heap target
            (w.sorter._drawcall.formatPropertyName "geometry[${geometryId}].position")
            .vertexBufferPtr = .ok (.vertexBufferPtr w1.sorter._vertexPositions.2))
      ∧ (target.hasProperty
            (w.sorter._drawcall.formatPropertyName "transform.modelToWorldMatrix") = true →
          ∃ m, w1.sorter._modelToWorldMatrix.2 = some m
            ∧ Container.get env heap target
                (w.sorter._drawcall.formatPropertyName "transform.modelToWorldMatrix")
                .matrix4x4 = .ok (.matrix4x4 m))
      ∧ (renderer.hasProperty
            (w.sorter._drawcall.formatPropertyName "camera.worldToScreenMatrix") = true →
          ∃ m, w1.sorter._worldToScreenMatrix.2 = some m
            ∧ Container.get env heap renderer
                (w.sorter._drawcall.formatPropertyName "camera.worldToScreenMatrix")
                .matrix4x4 = .ok (.matrix4x4 m))
      ∧ w1.sorter._drawcall = w.sorter._drawcall
      ∧ w1 = (DrawCallZSorter.requestZSort^[
            (DrawCallZSorter._rawProperties.entries.filter
              (fun r => (DrawCallZSorter.sourceContainer target renderer r.2).hasProperty
                (w.sorter._drawcall.formatPropertyName r.1))).length])
          ⟨w1.sorter, w.zsortNeeded⟩ := by
  obtain ⟨w1, hrun, hsame, -, hsl, -, c1, c2, c3, -, -, -, hz⟩ :=
    DrawCallZSorter.initialize_spec env heap order w target renderer root hinj hvb hmw hws
  obtain ⟨hdc, hmem, -, -, -, -, -, -⟩ :=
    DrawCallZSorter.initializeWatch_facts order w.sorter target renderer hinj
  refine ⟨w1, hrun, ?_, ?_, c1, c2, c3, hsame.drawcall.trans hdc, hz⟩
  · intro n
    rw [hsame.properties, AList.mem_keys, ← DrawCallZSorter.rawProperties_keys]
    constructor
    · intro hn
      obtain ⟨info, hinfo⟩ := List.exists_of_mem_keys hn
      obtain ⟨r, hr, hre⟩ := (hmem _).mp hinfo
      refine ⟨r.1, List.mem_keys_of_mem hr, ?_⟩
      exact congrArg Sigma.fst hre
    · rintro ⟨t, ht, rfl⟩
      obtain ⟨info, hinfo⟩ := List.exists_of_mem_keys ht
      exact List.mem_keys_of_mem ((hmem _).mpr ⟨⟨t, info⟩, hinfo, rfl⟩)
  · intro t info hlook hp
    exact hsl ⟨t, info⟩ (DrawCallZSorter.rawProperties_entry_of_lookup t info hlook) hp

/-- C8, amended, for a fresh sorter and a target container that already holds a transform
and a geometry: both get a slot, both are cached, and two re-sorts are
requested. -/
theorem DrawCallZSorter.initialize_present_properties_witness :
    ∃ w1, DrawCallZSorter.initialize Example.env Example.heap
        (Traversal.stored String PropertyInfo) Example.fresh Example.targetWithBoth
        Example.emptyRenderer Example.emptyRoot = (w1, .ok ())
      ∧ "material[0].priority" ∈ w1.sorter._properties
      ∧ w1.sorter._propChangedSlots.lookup "transform.modelToWorldMatrix"
          = some ⟨10, .propertyValueChanged "transform.modelToWorldMatrix", .requestZSort⟩
      ∧ w1.sorter._propChangedSlots.lookup "geometry[0].position"
          = some ⟨10, .propertyValueChanged "geometry[0].position", .requestZSort⟩
      ∧ Container.get Example.env Example.heap Example.targetWithBoth "geometry[0].position"
          .vertexBufferPtr = .ok (.vertexBufferPtr w1.sorter._vertexPositions.2)
      ∧ w1.zsortNeeded = [1, 1] := by
  obtain ⟨w1, h1, h2, h3, h4, -, -, hdc, hz⟩ :=
    DrawCallZSorter.initialize_present_properties Example.env Example.heap
      (Traversal.stored String PropertyInfo) Example.fresh Example.targetWithBoth
      Example.emptyRenderer Example.emptyRoot (by decide) (fun _ => ⟨_, rfl⟩)
      (fun _ => ⟨_, rfl⟩) (fun h => absurd h (by decide))
  refine ⟨w1, h1, ?_, ?_, ?_, h4 (by decide), ?_⟩
  · exact (h2 _).mpr ⟨"material[${materialId}].priority", by simp, rfl⟩
  · exact h3 "transform.modelToWorldMatrix" ⟨.target, true⟩ (by decide) (by decide)
  · exact h3 "geometry[${geometryId}].position" ⟨.target, false⟩ (by decide) (by decide)
  · rw [hz, DrawCallZSorter.requestZSort_iterate, hdc]
    show Example.fresh.zsortNeeded ++ (if Example.fresh.sorter._drawcall.zSorted = true then
      List.replicate (List.filter (fun r =>
        (DrawCallZSorter.sourceContainer Example.targetWithBoth Example.emptyRenderer
          r.snd).hasProperty (Example.fresh.sorter._drawcall.formatPropertyName r.fst))
        DrawCallZSorter._rawProperties.entries).length Example.fresh.sorter._drawcall.id
      else []) = [1, 1]
    decide

/-- C9, the code at the failing input: a sorter that caches the model-to-world
matrix of a transform is initialized again on containers with no provider, and
so is a fresh sorter on the same draw call. Both succeed with the same watched
names and no value-changed slot, but the first keeps the cached matrix, which
`clear()` does not reset, and reports an eye-space position of (2, 3, 4), while
the second has none and reports the zero vector. -/
theorem DrawCallZSorter.initialize_keeps_cached_matrix :
    Example.withTransform.sorter._drawcall = Example.fresh.sorter._drawcall
    ∧ Example.emptyTarget.hasProperty "transform.modelToWorldMatrix" = false
    ∧ Example.emptyRenderer.hasProperty "transform.modelToWorldMatrix" = false
    ∧ Example.initializedAgain.2 = .ok ()
    ∧ Example.initializedFresh.2 = .ok ()
    ∧ Example.initializedAgain.1.sorter._modelToWorldMatrix.2
        = some Example.translation
    ∧ Example.initializedFresh.1.sorter._modelToWorldMatrix.2 = none
    ∧ DrawCallZSorter.getEyeSpacePosition
        Example.initializedAgain.1.sorter = ⟨2, 3, 4⟩
    ∧ DrawCallZSorter.getEyeSpacePosition
        Example.initializedFresh.1.sorter = ⟨0, 0, 0⟩ := by
  have h1 : Example.initializedAgain.1.sorter._modelToWorldMatrix.2
      = some Example.translation := rfl
  have h2 : Example.initializedFresh.1.sorter._modelToWorldMatrix.2 = none := rfl
  have h3 : Example.initializedAgain.1.sorter._vertexPositions.2 = none := rfl
  have h4 : Example.initializedFresh.1.sorter._vertexPositions.2 = none := rfl
  have h5 : Example.initializedAgain.1.sorter._worldToScreenMatrix.2 = none := rfl
  have h6 : Example.initializedFresh.1.sorter._worldToScreenMatrix.2 = none := rfl
  refine ⟨rfl, by decide, by decide, rfl, rfl, h1, h2, ?_, ?_⟩
  · simp only [DrawCallZSorter.getEyeSpacePosition, h1, h3, h5]
    norm_num [Example.translation, Vector3.splat, Vector4.ofVector3, Vector4.mulMatrix,
      Vector4.xyz]
  · simp only [DrawCallZSorter.getEyeSpacePosition, h2, h4, h6]
    norm_num [Matrix4x4.diagonal, Vector3.splat, Vector4.ofVector3, Vector4.mulMatrix,
      Vector4.xyz]

/-- C10 as stated fails: a fresh sorter is initialized on containers that hold a
geometry but no transform; `getEyeSpacePosition()` then returns the midpoint of
the position buffer, (1, 1, 1), not the zero vector. -/
theorem DrawCallZSorter.eyeSpacePosition_counterexample :
    Example.targetWithGeometry.hasProperty "transform.modelToWorldMatrix" = false
    ∧ Example.emptyRenderer.hasProperty "transform.modelToWorldMatrix" = false
    ∧ Example.emptyRoot.hasProperty "transform.modelToWorldMatrix" = false
    ∧ Example.initializedOnGeometry.2 = .ok ()
    ∧ DrawCallZSorter.getEyeSpacePosition
        Example.initializedOnGeometry.1.sorter = ⟨1, 1, 1⟩
    ∧ (⟨1, 1, 1⟩ : Vector3) ≠ Vector3.splat 0 := by
  have h1 : Example.initializedOnGeometry.1.sorter._vertexPositions.2
      = some Example.pointBuffer := rfl
  have h2 : Example.initializedOnGeometry.1.sorter._modelToWorldMatrix.2 = none := rfl
  have h3 : Example.initializedOnGeometry.1.sorter._worldToScreenMatrix.2 = none := rfl
  refine ⟨by decide, by decide, by decide, rfl, ?_, ?_⟩
  · simp only [DrawCallZSorter.getEyeSpacePosition, h1, h2, h3]
    norm_num [Example.pointBuffer, Matrix4x4.diagonal, Vector3.add, Vector3.sub,
      Vector3.scale, Vector4.ofVector3, Vector4.mulMatrix, Vector4.xyz]
  · intro h
    have hx := congrArg Vector3.x h
    norm_num [Vector3.splat] at hx

theorem DrawCallZSorter.getEyeSpacePosition_of_none (s : DrawCallZSorter)
    (h1 : s._vertexPositions.2 = none) (h2 : s._modelToWorldMatrix.2 = none)
    (h3 : s._worldToScreenMatrix.2 = none) :
    DrawCallZSorter.getEyeSpacePosition s = Vector3.splat 0 := by
  simp only [DrawCallZSorter.getEyeSpacePosition, h1, h2, h3]
  norm_num [Matrix4x4.diagonal, Vector3.splat, Vector4.ofVector3, Vector4.mulMatrix,
    Vector4.xyz]

/-- C10, amended: a freshly constructed sorter is initialized for a draw call
whose formatter keeps the five raw names apart, on a target container that
holds neither the position buffer nor the model-to-world matrix and a renderer
container that holds no world-to-screen matrix. `initialize` succeeds, and
`getEyeSpacePosition()` returns the zero vector. A later property-added event
for the model-to-world matrix name, from a container that holds a matrix under
that name, succeeds and runs `requestZSort()` once: when the draw call is
flagged zSorted, `zsortNeeded` is executed once more. -/
theorem DrawCallZSorter.eyeSpacePosition_without_spatial_inputs (env : Env) (heap : Heap)
    (order : Traversal String PropertyInfo) (drawcall : DrawCall) (signals : List Nat)
    (target renderer root container : Container)
    (hinj : (DrawCallZSorter._rawProperties.keys.map drawcall.formatPropertyName).Nodup)
    (hg : target.hasProperty
      (drawcall.formatPropertyName "geometry[${geometryId}].position") = false)
    (hm : target.hasProperty
      (drawcall.formatPropertyName "transform.modelToWorldMatrix") = false)
    (hw : renderer.hasProperty
      (drawcall.formatPropertyName "camera.worldToScreenMatrix") = false)
    (hget : ∃ v, Container.get env heap container
      (drawcall.formatPropertyName "transform.modelToWorldMatrix") .matrix4x4 = .ok v) :
    ∃ w1, DrawCallZSorter.initialize env heap order
        ⟨DrawCallZSorter.create drawcall, signals⟩ target renderer root = (w1, .ok ())
      ∧ DrawCallZSorter.getEyeSpacePosition w1.sorter = Vector3.splat 0
      ∧ ∃ w2, DrawCallZSorter.propertyAddedHandler env heap w1 container
          (drawcall.formatPropertyName "transform.modelToWorldMatrix") = (w2, .ok ())
        ∧ w2 = DrawCallZSorter.requestZSort ⟨w2.sorter, w1.zsortNeeded⟩
        ∧ w2.sorter._drawcall = drawcall
        ∧ (drawcall.zSorted = true → w2.zsortNeeded = w1.zsortNeeded ++ [drawcall.id])
        ∧ (drawcall.zSorted = false → w2.zsortNeeded = w1.zsortNeeded) := by
  obtain ⟨w1, hrun, hsame, -, -, -, -, -, -, a1, a2, a3, -⟩ :=
    DrawCallZSorter.initialize_spec env heap order ⟨DrawCallZSorter.create drawcall, signals⟩
      target renderer root hinj (fun h => absurd (hg ▸ h) (by simp))
      (fun h => absurd (hm ▸ h) (by simp)) (fun h => absurd (hw ▸ h) (by simp))
  obtain ⟨hdc, hmem, -, -, -, n1, n2, n3⟩ :=
    DrawCallZSorter.initializeWatch_facts order (DrawCallZSorter.create drawcall) target
      renderer hinj
  obtain ⟨hd1, hd2, hd3⟩ :=
    DrawCallZSorter.initializeWatch_distinct order (DrawCallZSorter.create drawcall) target
      renderer hinj
  have hfmt : (DrawCallZSorter.create drawcall)._drawcall.formatPropertyName
      = drawcall.formatPropertyName := rfl
  have hw1dc : w1.sorter._drawcall = drawcall := hsame.drawcall.trans hdc
  have hname1 : w1.sorter._vertexPositions.1
      = drawcall.formatPropertyName "geometry[${geometryId}].position" :=
    hsame.positionsName.trans (congrArg Prod.fst n1)
  have hname2 : w1.sorter._modelToWorldMatrix.1
      = drawcall.formatPropertyName "transform.modelToWorldMatrix" :=
    hsame.modelToWorldName.trans (congrArg Prod.fst n2)
  have hname3 : w1.sorter._worldToScreenMatrix.1
      = drawcall.formatPropertyName "camera.worldToScreenMatrix" :=
    hsame.worldToScreenName.trans (congrArg Prod.fst n3)
  have hne1 : drawcall.formatPropertyName "transform.modelToWorldMatrix"
      ≠ w1.sorter._vertexPositions.1 := by
    rw [hname1]
    intro h
    apply hd1
    rw [n1, n2]
    exact h.symm
  have hne3 : drawcall.formatPropertyName "transform.modelToWorldMatrix"
      ≠ w1.sorter._worldToScreenMatrix.1 := by
    rw [hname3]
    intro h
    apply hd3
    rw [n2, n3]
    exact h
  have hwatched : drawcall.formatPropertyName "transform.modelToWorldMatrix"
      ∈ w1.sorter._properties := by
    rw [hsame.properties, AList.mem_keys]
    exact List.mem_keys_of_mem ((hmem _).mpr
      ⟨⟨"transform.modelToWorldMatrix", ⟨.target, true⟩⟩,
        DrawCallZSorter.rawProperties_entry_of_lookup _ _ (by decide), rfl⟩)
  obtain ⟨w2, hstep, hsame2, -, -, -, -, -, -, -, -, -, hz⟩ :=
    DrawCallZSorter.propertyAdded_step env heap w1 container
      (drawcall.formatPropertyName "transform.modelToWorldMatrix") hwatched
      (fun h => absurd h hne1) (fun _ => hget) (fun h => absurd h hne3)
  have hw2dc : w2.sorter._drawcall = drawcall := hsame2.drawcall.trans hw1dc
  have hlog : w2.zsortNeeded = w1.zsortNeeded
      ++ (if drawcall.zSorted then [drawcall.id] else []) := by
    have := congrArg World.zsortNeeded hz
    rw [DrawCallZSorter.requestZSort_log] at this
    rw [this]
    show w1.zsortNeeded ++ (if w2.sorter._drawcall.zSorted = true
      then [w2.sorter._drawcall.id] else []) = _
    rw [hw2dc]
  refine ⟨w1, hrun, ?_, w2, hstep, hz, hw2dc, ?_, ?_⟩
  · exact DrawCallZSorter.getEyeSpacePosition_of_none w1.sorter
      ((a1 hg).trans rfl) ((a2 hm).trans rfl) ((a3 hw).trans rfl)
  · intro hzs
    rw [hlog, if_pos hzs]
  · intro hzs
    rw [hlog]
    simp [hzs]

/-- C10, amended, for the zSorted example draw call: the sorter is initialized
on containers with no provider and the transform is attached afterwards. -/
theorem DrawCallZSorter.eyeSpacePosition_without_spatial_inputs_witness :
    ∃ w1, DrawCallZSorter.initialize Example.env Example.heap
        (Traversal.stored String PropertyInfo)
        ⟨DrawCallZSorter.create Example.drawcall, []⟩ Example.emptyTarget
        Example.emptyRenderer Example.emptyRoot = (w1, .ok ())
      ∧ DrawCallZSorter.getEyeSpacePosition w1.sorter = Vector3.splat 0
      ∧ ∃ w2, DrawCallZSorter.propertyAddedHandler Example.env Example.heap w1
          Example.targetWithTransform "transform.modelToWorldMatrix" = (w2, .ok ())
        ∧ w2.zsortNeeded = w1.zsortNeeded ++ [1] := by
  obtain ⟨w1, h1, h2, w2, h3, -, -, h6, -⟩ :=
    DrawCallZSorter.eyeSpacePosition_without_spatial_inputs Example.env Example.heap
      (Traversal.stored String PropertyInfo) Example.drawcall [] Example.emptyTarget
      Example.emptyRenderer Example.emptyRoot Example.targetWithTransform
      (by decide) (by decide) (by decide) (by decide) ⟨_, rfl⟩
  exact ⟨w1, h1, h2, w2, h3, h6 rfl⟩

/-! ## Debug-only provider checks -/

/-- C11: with `DEBUG` defined, `assertProviderDoesNotExist(p)` fails exactly
when `p` is in the list of attached providers and `assertProviderExists(p)`
fails exactly when it is not, both with invalid-argument and with no other
error; without `DEBUG` neither check fails. Both are const member functions:
they return an outcome and no new container. -/
theorem Container.assertProvider_checks (env : Env) (c : Container) (p : ProviderPtr) :
    (env.debug = true →
      (c.assertProviderDoesNotExist env p = .error .invalidArgument ↔ p ∈ c._providers)
      ∧ (c.assertProviderDoesNotExist env p = .ok () ↔ p ∉ c._providers)
      ∧ (c.assertProviderExists env p = .error .invalidArgument ↔ p ∉ c._providers)
      ∧ (c.assertProviderExists env p = .ok () ↔ p ∈ c._providers))
    ∧ (env.debug = false →
      c.assertProviderDoesNotExist env p = .ok () ∧ c.assertProviderExists env p = .ok ())
    ∧ (∀ e, c.assertProviderDoesNotExist env p = .error e → e = .invalidArgument)
    ∧ (∀ e, c.assertProviderExists env p = .error e → e = .invalidArgument) := by
  refine ⟨?_, ?_, ?_, ?_⟩
  · intro hd
    by_cases hp : p ∈ c._providers <;>
      simp [Container.assertProviderDoesNotExist, Container.assertProviderExists, hd, hp]
  · intro hd
    simp [Container.assertProviderDoesNotExist, Container.assertProviderExists, hd]
  · intro e he
    unfold Container.assertProviderDoesNotExist at he
    split_ifs at he
    cases he
    rfl
  · intro e he
    unfold Container.assertProviderExists at he
    split_ifs at he
    cases he
    rfl

/-- C11 on the container of the scenario, which lists the provider at address
0 and not the one at address 5, with `DEBUG` defined and without. -/
theorem Container.assertProvider_checks_witness :
    Example.containerA.assertProviderDoesNotExist Example.env (some 0)
      = .error .invalidArgument
    ∧ Example.containerA.assertProviderExists Example.env (some 5) = .error .invalidArgument
    ∧ Example.containerA.assertProviderDoesNotExist Example.envRelease (some 0) = .ok ()
    ∧ Example.containerA.assertProviderExists Example.envRelease (some 5) = .ok () :=
  ⟨((Container.assertProvider_checks Example.env Example.containerA (some 0)).1 rfl).1.mpr
      (by decide),
   ((Container.assertProvider_checks Example.env Example.containerA (some 5)).1 rfl).2.2.1.mpr
      (by decide),
   ((Container.assertProvider_checks Example.envRelease Example.containerA (some 0)).2.1 rfl).1,
   ((Container.assertProvider_checks Example.envRelease Example.containerA (some 5)).2.1 rfl).2⟩

/-! ## Value-changed events and unwatched names -/

/-- C13: the slot that `propertyAddedHandler` connects for a name without a slot
carries the lambda; whenever a signal runs a slot with that callback, for any
container, name and state of the providers, `requestZSort()` is run exactly
once and the sorter is left as it was: watched names, slots and the three
cached spatial values are not written, and no provider is read. -/
theorem DrawCallZSorter.valueChanged_requests_zsort (env : Env) (heap : Heap) (w : World)
    (slot : Slot) (container : Container) (propertyName : String)
    (hcallback : slot.callback = Callback.requestZSort) :
    DrawCallZSorter.runSlot env heap w slot container propertyName
      = (DrawCallZSorter.requestZSort w, .ok ())
    ∧ DrawCallZSorter.valueChangedHandler w container propertyName
      = DrawCallZSorter.requestZSort w
    ∧ (DrawCallZSorter.requestZSort w).sorter = w.sorter
    ∧ (DrawCallZSorter.requestZSort w).zsortNeeded
      = w.zsortNeeded ++ (if w.sorter._drawcall.zSorted then [w.sorter._drawcall.id] else [])
    ∧ (∀ (s : DrawCallZSorter) (c : Container) (n : String), n ∉ s._propChangedSlots →
        ∃ connected, (DrawCallZSorter.connectValueChanged s c n)._propChangedSlots.lookup n
            = some connected
          ∧ connected.callback = Callback.requestZSort
          ∧ connected.container = c._containerId
          ∧ connected.channel = Channel.propertyValueChanged n) := by
  refine ⟨?_, rfl, DrawCallZSorter.requestZSort_sorter w, DrawCallZSorter.requestZSort_log w,
    ?_⟩
  · simp only [DrawCallZSorter.runSlot, hcallback, DrawCallZSorter.valueChangedHandler]
  · intro s c n hn
    refine ⟨DrawCallZSorter.valueChangedSlot c n, ?_, rfl, rfl, rfl⟩
    rw [(DrawCallZSorter.connectValueChanged_facts s c n).1, AList.lookup_eq_none.mpr hn]
    rfl

/-- C13 for the sorter that caches the matrix of the attached transform: the
transform is then changed to the identity and the value-changed slot of its
name is run. One re-sort is requested and the cached matrix is still the
translation read when the property was added, not the container's current
value. -/
theorem DrawCallZSorter.valueChanged_requests_zsort_witness :
    Example.withTransform.sorter._propChangedSlots.lookup "transform.modelToWorldMatrix"
      = some Example.transformSlot
    ∧ Container.get Example.env Example.heapMoved Example.targetWithTransform
        "transform.modelToWorldMatrix" .matrix4x4 = .ok (.matrix4x4 Matrix4x4.identity)
    ∧ DrawCallZSorter.runSlot Example.env Example.heapMoved Example.withTransform
        Example.transformSlot Example.targetWithTransform "transform.modelToWorldMatrix"
      = (DrawCallZSorter.requestZSort Example.withTransform, .ok ())
    ∧ (DrawCallZSorter.requestZSort Example.withTransform).sorter._modelToWorldMatrix.2
      = some Example.translation
    ∧ (DrawCallZSorter.requestZSort Example.withTransform).zsortNeeded = [1, 1] := by
  have h := DrawCallZSorter.valueChanged_requests_zsort Example.env Example.heapMoved
    Example.withTransform Example.transformSlot Example.targetWithTransform
    "transform.modelToWorldMatrix" rfl
  refine ⟨by decide, rfl, h.1, ?_, ?_⟩
  · rw [h.2.2.1]; rfl
  · rw [h.2.2.2.1]; rfl

/-- C14: for every sorter state, every container and every property name that
is not a watched name, `propertyAddedHandler` and `propertyRemovedHandler`
return at once: they succeed and leave the sorter and the record of
`zsortNeeded` exactly as they were, whatever the draw call's zSorted flag and
whatever the providers hold. -/
theorem DrawCallZSorter.handlers_ignore_unwatched (env : Env) (heap : Heap) (w : World)
    (container : Container) (propertyName : String)
    (hunwatched : propertyName ∉ w.sorter._properties) :
    DrawCallZSorter.propertyAddedHandler env heap w container propertyName = (w, .ok ())
    ∧ DrawCallZSorter.propertyRemovedHandler env heap w container propertyName
      = (w, .ok ()) := by
  constructor
  · simp only [DrawCallZSorter.propertyAddedHandler, AList.lookup_eq_none.mpr hunwatched]
  · simp only [DrawCallZSorter.propertyRemovedHandler, hunwatched, not_false_eq_true, if_true]

/-- C14 for the sorter that caches the matrix of the attached transform, on a
zSorted draw call, and the name `foo`, which it does not watch. -/
theorem DrawCallZSorter.handlers_ignore_unwatched_witness :
    Example.withTransform.sorter._drawcall.zSorted = true
    ∧ DrawCallZSorter.propertyAddedHandler Example.env Example.heap Example.withTransform
        Example.targetWithTransform "foo" = (Example.withTransform, .ok ())
    ∧ DrawCallZSorter.propertyRemovedHandler Example.env Example.heap Example.withTransform
        Example.targetWithTransform "foo" = (Example.withTransform, .ok ()) :=
  ⟨rfl, DrawCallZSorter.handlers_ignore_unwatched Example.env Example.heap
    Example.withTransform Example.targetWithTransform "foo" (by decide)⟩

/-! ## Provider index -/

theorem uintToInt_minus_one : uintToInt (intToUint (-1)) = -1 := by
  decide

theorem uintToInt_of_lt (i : Nat) (h : i < 2 ^ 31) : uintToInt (i % UINT_MOD) = (i : Int) := by
  have h32 : i < UINT_MOD := lt_trans h (by decide)
  have hmod : i % UINT_MOD = i := Nat.mod_eq_of_lt h32
  unfold uintToInt
  rw [hmod, hmod, if_pos h]

/-- C15: `getProviderIndex(p)` returns -1 when `p` has no entry in the
provider-to-index map and otherwise the assigned `uint` index converted to
`int`; for every assigned index below 2^31 the result is that index and is
not negative, so that -1 is returned exactly when `p` has no index. -/
theorem Container.getProviderIndex_spec (c : Container) (p : ProviderPtr) :
    (c._providerToIndex.lookup p = none → c.getProviderIndex p = -1)
    ∧ (∀ i, c._providerToIndex.lookup p = some i →
        c.getProviderIndex p = uintToInt (i % UINT_MOD))
    ∧ (∀ i, c._providerToIndex.lookup p = some i → i < 2 ^ 31 →
        c.getProviderIndex p = (i : Int) ∧ 0 ≤ c.getProviderIndex p)
    ∧ ((∀ i, c._providerToIndex.lookup p = some i → i < 2 ^ 31) →
        (c.getProviderIndex p = -1 ↔ c._providerToIndex.lookup p = none)) := by
  have hnone : c._providerToIndex.lookup p = none → c.getProviderIndex p = -1 := by
    intro h
    simp only [Container.getProviderIndex, h]
    exact uintToInt_minus_one
  have hsome : ∀ i, c._providerToIndex.lookup p = some i → i < 2 ^ 31 →
      c.getProviderIndex p = (i : Int) ∧ 0 ≤ c.getProviderIndex p := by
    intro i h hi
    have : c.getProviderIndex p = (i : Int) := by
      simp only [Container.getProviderIndex, h]
      exact uintToInt_of_lt i hi
    exact ⟨this, this ▸ Int.natCast_nonneg i⟩
  refine ⟨hnone, ?_, hsome, ?_⟩
  · intro i h
    simp only [Container.getProviderIndex, h]
  · intro hbound
    constructor
    · intro hminus
      cases hl : c._providerToIndex.lookup p with
      | none => rfl
      | some i =>
        have h0 := (hsome i hl (hbound i hl)).2
        rw [hminus] at h0
        exact absurd h0 (by decide)
    · exact hnone

/-- C15 on a container in which the provider at address 2 has index 1 and the
provider at address 5 has none. -/
theorem Container.getProviderIndex_spec_witness :
    Example.containerIndexed.getProviderIndex (some 5) = -1
    ∧ Example.containerIndexed.getProviderIndex (some 2) = 1
    ∧ 0 ≤ Example.containerIndexed.getProviderIndex (some 2) :=
  ⟨(Container.getProviderIndex_spec Example.containerIndexed (some 5)).1 (by decide),
   (Container.getProviderIndex_spec Example.containerIndexed (some 2)).2.2.1 1 (by decide)
     (by decide)⟩

end Minko
